import Mathlib

/-!
Verification development for the devlog event-collection pipeline
(crates `devlog-core`, `devlog-adapters`, `devlog-buffer`, `devlog-backfill`).

The embedding is shallow: each Rust function that a claim touches is
translated into an executable Lean definition.  External-library behaviour
(serde_json's text printer/parser, chrono's RFC3339 string parser, UUID
generation, the token-count float estimate) is passed in as an explicit
function parameter, so every theorem quantifies over it; the data-dependent
logic of the repository itself is translated literally.  Machine integers
are modelled as `Int`/`Nat`; timestamps are integers counting milliseconds
since the Unix epoch.
-/

/-- Model of `serde_json::Value`.  Numeric leaves are modelled as integers:
every number this program itself writes into a payload is an integer
(lengths, token counts, epoch stamps); IEEE-754 float semantics are outside
the embedding. -/
inductive Json where
  | null : Json
  | bool (b : Bool) : Json
  | num (n : Int) : Json
  | str (s : String) : Json
  | arr (elems : List Json) : Json
  | obj (fields : List (String × Json)) : Json

/-- Field lookup in a JSON object's field list (first match, as serde's
struct deserializer reads a map). -/
def jGet (fields : List (String × Json)) (k : String) : Option Json :=
  match fields with
  | [] => none
  | (k', v) :: rest => if k' = k then some v else jGet rest k

/-- Whether a serialized object carries a field named `k`. -/
def jsonHasKey : Json → String → Bool
  | .obj fields, k => (jGet fields k).isSome
  | _, _ => false

def jStr? : Json → Option String
  | .str s => some s
  | _ => none

def jInt? : Json → Option Int
  | .num n => some n
  | _ => none

def jObj? : Json → Option (List (String × Json))
  | .obj fields => some fields
  | _ => none

/-- `devlog_core::EventMetrics` (src/rust/devlog-core/src/lib.rs:37-48).
`cost: Option<f64>` is modelled with an integer payload; only its
presence/absence matters to the serialization attributes. -/
structure EventMetrics where
  token_count : Option Int
  duration_ms : Option Int
  prompt_tokens : Option Int
  response_tokens : Option Int
  cost : Option Int
deriving Repr, DecidableEq

/-- `devlog_core::AgentEvent` (src/rust/devlog-core/src/lib.rs:7-33).
`timestamp: DateTime<Utc>` is an epoch-milliseconds integer; `context` and
`data` (`HashMap<String, Value>`) are association lists of their entries. -/
structure AgentEvent where
  id : String
  timestamp : Int
  event_type : String
  agent_id : String
  agent_version : String
  session_id : String
  project_id : Int
  machine_id : Option Int
  workspace_id : Option Int
  legacy_project_id : Option String
  context : List (String × Json)
  data : List (String × Json)
  metrics : Option EventMetrics

/-- A field that is serialized only when present
(`#[serde(skip_serializing_if = "Option::is_none")]`). -/
def optField (k : String) : Option Json → List (String × Json)
  | some v => [(k, v)]
  | none => []

/-- serde serialization of `EventMetrics`: camelCase keys, each `Option`
field omitted when `None`. -/
def metricsToJson (m : EventMetrics) : Json :=
  .obj (optField "tokenCount" (m.token_count.map Json.num)
    ++ optField "durationMs" (m.duration_ms.map Json.num)
    ++ optField "promptTokens" (m.prompt_tokens.map Json.num)
    ++ optField "responseTokens" (m.response_tokens.map Json.num)
    ++ optField "cost" (m.cost.map Json.num))

/-- serde deserialization of `EventMetrics`: every field is an `Option`,
so a missing or null key yields `none`. -/
def metricsFromJson (j : Json) : Option EventMetrics :=
  match j with
  | .obj fs =>
    (optLookup fs "tokenCount" jInt?).bind fun tc =>
    (optLookup fs "durationMs" jInt?).bind fun dm =>
    (optLookup fs "promptTokens" jInt?).bind fun pt =>
    (optLookup fs "responseTokens" jInt?).bind fun rt =>
    (optLookup fs "cost" jInt?).map fun c =>
    ⟨tc, dm, pt, rt, c⟩
  | _ => none
where
  /-- serde's handling of an `Option` field: missing key or explicit null
  is `none`; a present value must convert. -/
  optLookup (fs : List (String × Json)) (k : String) (conv : Json → Option Int) :
      Option (Option Int) :=
    match jGet fs k with
    | none => some none
    | some .null => some none
    | some v => (conv v).map some

/-- serde serialization of `AgentEvent` as performed by
`serde_json::to_string(event)` in `Buffer::store`
(src/rust/devlog-buffer/src/lib.rs:71), at the JSON-value level (the
value-to-text layer is serde_json's own and is factored out as `tsEnc`
for the chrono timestamp string).  camelCase field names, `eventType`
renamed explicitly, `Option` fields and an empty `context` omitted. -/
def eventToJson (tsEnc : Int → String) (e : AgentEvent) : Json :=
  .obj ([("id", .str e.id),
        ("timestamp", .str (tsEnc e.timestamp)),
        ("eventType", .str e.event_type),
        ("agentId", .str e.agent_id),
        ("agentVersion", .str e.agent_version),
        ("sessionId", .str e.session_id),
        ("projectId", .num e.project_id)]
    ++ optField "machineId" (e.machine_id.map Json.num)
    ++ optField "workspaceId" (e.workspace_id.map Json.num)
    ++ optField "legacyProjectId" (e.legacy_project_id.map Json.str)
    ++ (if e.context.isEmpty then [] else [("context", .obj e.context)])
    ++ [("data", .obj e.data)]
    ++ optField "metrics" (e.metrics.map metricsToJson))

/-- serde deserialization of an `Option` scalar field: missing or null is
`none`, a present value must convert. -/
def optScalar (fs : List (String × Json)) (k : String) (conv : Json → Option α) :
    Option (Option α) :=
  match jGet fs k with
  | none => some none
  | some .null => some none
  | some v => (conv v).map some

/-- serde deserialization of `AgentEvent`, as performed by
`serde_json::from_str` in `Buffer::retrieve`
(src/rust/devlog-buffer/src/lib.rs:101).  Required fields must be present;
`Option` fields default to `none`; `context` carries `#[serde(default)]`,
so a missing `context` key yields the empty map.  `tsDec` is chrono's
RFC3339 reader for the timestamp string. -/
def eventFromJson (tsDec : String → Option Int) (j : Json) : Option AgentEvent :=
  match j with
  | .obj fs =>
    ((jGet fs "timestamp").bind jStr?).bind fun tsS =>
    (tsDec tsS).bind fun ts =>
    (match jGet fs "metrics" with
     | none => some none
     | some .null => some none
     | some v => (metricsFromJson v).map some).bind fun met =>
    ((jGet fs "id").bind jStr?).bind fun id =>
    ((jGet fs "eventType").bind jStr?).bind fun ety =>
    ((jGet fs "agentId").bind jStr?).bind fun aid =>
    ((jGet fs "agentVersion").bind jStr?).bind fun aver =>
    ((jGet fs "sessionId").bind jStr?).bind fun sid =>
    ((jGet fs "projectId").bind jInt?).bind fun pid =>
    (optScalar fs "machineId" jInt?).bind fun mid =>
    (optScalar fs "workspaceId" jInt?).bind fun wid =>
    (optScalar fs "legacyProjectId" jStr?).bind fun lpid =>
    (match jGet fs "context" with
     | none => some []
     | some (.obj c) => some c
     | some _ => none).bind fun ctx =>
    ((jGet fs "data").bind jObj?).map fun dat =>
    ⟨id, ts, ety, aid, aver, sid, pid, mid, wid, lpid, ctx, dat, met⟩
  | _ => none

/-! ## chrono model

`Utc.timestamp_opt(secs, 0)` and `Utc.timestamp_millis_opt(ms)` succeed
exactly when the instant lies inside chrono's representable datetime range
(years -262144 to 262143); outside it they return `LocalResult::None` and
the adapters' `.unwrap()` panics.  `none` in the models below stands for
that panic. -/

/-- Days from 1970-01-01 to the proleptic-Gregorian date y-m-d
(Howard Hinnant's days_from_civil, the arithmetic underlying chrono's
calendar). -/
def daysFromCivil (y m d : Int) : Int :=
  let y' := if m ≤ 2 then y - 1 else y
  let era := Int.ediv y' 400
  let yoe := y' - era * 400
  let mp := Int.emod (m + 9) 12
  let doy := Int.ediv (153 * mp + 2) 5 + d - 1
  let doe := yoe * 365 + Int.ediv yoe 4 - Int.ediv yoe 100 + doy
  era * 146097 + doe - 719468

/-- chrono's latest representable epoch second (262143-12-31T23:59:59). -/
def chronoMaxSecs : Int := daysFromCivil 262143 12 31 * 86400 + 86399

/-- chrono's earliest representable epoch second (-262144-01-01T00:00:00). -/
def chronoMinSecs : Int := daysFromCivil (-262144) 1 1 * 86400

/-- `Utc.timestamp_opt(secs, 0)`, yielding epoch milliseconds;
`none` models the out-of-range panic of the `.unwrap()` at the call sites. -/
def timestampOpt (secs : Int) : Option Int :=
  if chronoMinSecs ≤ secs ∧ secs ≤ chronoMaxSecs then some (secs * 1000) else none

/-- `Utc.timestamp_millis_opt(ms)`; valid exactly when the second component
`ms.div_euclid(1000)` is in chrono's range. -/
def timestampMillisOpt (ms : Int) : Option Int :=
  if chronoMinSecs * 1000 ≤ ms ∧ ms ≤ chronoMaxSecs * 1000 + 999 then some ms else none

/-- `serde_json::Number::as_i64`: succeeds exactly for integers that fit in
a 64-bit signed word (the model's `Json.num` only covers integral numbers;
for non-integral numbers `as_i64` also fails and the adapters fall back to
now). -/
def asI64 (n : Int) : Option Int :=
  if -(2 ^ 63) ≤ n ∧ n < 2 ^ 63 then some n else none

/-! ## Adapter layer

Shared modelling conventions: `rfc` is chrono's `DateTime::parse_from_rfc3339`
(an external parser, passed as a parameter); `now` is the current instant in
epoch milliseconds; `decode` is serde_json's line decoder into the adapter's
entry struct (`None` models any serde error). -/

/-- Case-insensitive-free substring test used to model Rust's
`str::contains` on the already-lowercased message. -/
def containsSubstr (s pat : String) : Bool :=
  (s.splitOn pat).length != 1

/-- `ClaudeAdapter::parse_timestamp` (src/rust/devlog-adapters/src/claude.rs:63-80):
RFC3339 strings, else numeric epoch seconds via `timestamp_opt(..).unwrap()`
(a panic when out of range, modelled as `none`), else now. -/
def claudeParseTimestamp (rfc : String → Option Int) (now : Int) (ts : Json) :
    Option Int :=
  match ts with
  | .str s =>
    match rfc s with
    | some t => some t
    | none => some now
  | .num n =>
    match asI64 n with
    | some secs => timestampOpt secs
    | none => some now
  | _ => some now

/-- `CursorAdapter::parse_timestamp` (src/rust/devlog-adapters/src/cursor.rs:67-93):
for strings it loops over three naive formats, each iteration first trying
RFC3339 and then `datetime_from_str` with that format (`fmtParse fmt s`);
numbers go through `timestamp_opt(..).unwrap()` like Claude's. -/
def cursorParseTimestamp (rfc : String → Option Int)
    (fmtParse : String → String → Option Int) (now : Int) (ts : Json) :
    Option Int :=
  match ts with
  | .str s =>
    let tryFmt : List String → Int := fun fmts =>
      fmts.foldr
        (fun fmt acc =>
          match rfc s with
          | some t => t
          | none =>
            match fmtParse fmt s with
            | some t => t
            | none => acc)
        now
    some (tryFmt ["%Y-%m-%dT%H:%M:%S%.fZ", "%Y-%m-%dT%H:%M:%SZ", "%Y-%m-%d %H:%M:%S"])
  | .num n =>
    match asI64 n with
    | some secs => timestampOpt secs
    | none => some now
  | _ => some now

/-- `CopilotAdapter::parse_timestamp` (src/rust/devlog-adapters/src/copilot.rs:46-62):
RFC3339 strings, else numeric epoch milliseconds via
`timestamp_millis_opt(..).unwrap()` (panic when out of range), else now. -/
def copilotParseTimestamp (rfc : String → Option Int) (now : Int) (ts : Json) :
    Option Int :=
  match ts with
  | .str s =>
    match rfc s with
    | some t => some t
    | none => some now
  | .num n =>
    match asI64 n with
    | some ms => timestampMillisOpt ms
    | none => some now
  | _ => some now

/-- `ClaudeLogEntry` (src/rust/devlog-adapters/src/claude.rs:229-249). -/
structure ClaudeLogEntry where
  timestamp : Json
  level : Option String
  message : String
  event_type : Option String
  conversation_id : Option String
  model : Option String
  prompt : Option String
  response : Option String
  tokens_used : Option Int
  prompt_tokens : Option Int
  response_tokens : Option Int
  tool_name : Option String
  tool_input : Option Json
  tool_output : Option Json
  file_path : Option String
  action : Option String
  metadata : Option (List (String × Json))

/-- `ClaudeAdapter::detect_event_type` (src/rust/devlog-adapters/src/claude.rs:27-61). -/
def claudeDetectEventType (entry : ClaudeLogEntry) : Option String :=
  let byType : Option String :=
    match entry.event_type with
    | some t =>
      if t = "llm_request" ∨ t = "prompt" then some "llm_request"
      else if t = "llm_response" ∨ t = "completion" then some "llm_response"
      else if t = "tool_use" ∨ t = "tool_call" then some "tool_use"
      else if t = "file_read" then some "file_read"
      else if t = "file_write" ∨ t = "file_modify" then some "file_write"
      else none
    | none => none
  match byType with
  | some t => some t
  | none =>
    let msgLower := entry.message.toLower
    if entry.prompt.isSome ∨ containsSubstr msgLower "prompt" ∨
        containsSubstr msgLower "request" then
      some "llm_request"
    else if entry.response.isSome ∨ containsSubstr msgLower "response" ∨
        containsSubstr msgLower "completion" then
      some "llm_response"
    else if entry.tool_name.isSome ∨ containsSubstr msgLower "tool" then
      some "tool_use"
    else
      match entry.file_path, entry.action with
      | some _, some action =>
        if action = "read" ∨ containsSubstr msgLower "read" then some "file_read"
        else if action = "write" ∨ containsSubstr msgLower "write" ∨
            containsSubstr msgLower "modify" then some "file_write"
        else none
      | _, _ => none

/-- `HashMap::insert` over the association-list model: replaces any
existing binding for the key. -/
def mapInsert (m : List (String × Json)) (k : String) (v : Json) :
    List (String × Json) :=
  (m.filter fun p => p.1 ≠ k) ++ [(k, v)]

/-- `ClaudeAdapter::extract_context` (src/rust/devlog-adapters/src/claude.rs:82-96). -/
def claudeExtractContext (entry : ClaudeLogEntry) : List (String × Json) :=
  let ctx : List (String × Json) := []
  let ctx := match entry.level with
    | some level => mapInsert ctx "logLevel" (.str level)
    | none => ctx
  let ctx := match entry.model with
    | some model => mapInsert ctx "model" (.str model)
    | none => ctx
  match entry.metadata with
  | some metadata => metadata.foldl (fun acc p => mapInsert acc p.1 p.2) ctx
  | none => ctx

/-- `ClaudeAdapter::extract_data` (src/rust/devlog-adapters/src/claude.rs:98-142). -/
def claudeExtractData (entry : ClaudeLogEntry) (eventType : String) :
    List (String × Json) :=
  let data := mapInsert [] "message" (.str entry.message)
  let data :=
    if eventType = "llm_request" then
      match entry.prompt with
      | some prompt =>
        mapInsert (mapInsert data "prompt" (.str prompt)) "promptLength"
          (.num prompt.utf8ByteSize)
      | none => data
    else if eventType = "llm_response" then
      match entry.response with
      | some response =>
        mapInsert (mapInsert data "response" (.str response)) "responseLength"
          (.num response.utf8ByteSize)
      | none => data
    else if eventType = "tool_use" then
      let data := match entry.tool_name with
        | some toolName => mapInsert data "toolName" (.str toolName)
        | none => data
      let data := match entry.tool_input with
        | some ti => mapInsert data "toolInput" ti
        | none => data
      match entry.tool_output with
      | some to' => mapInsert data "toolOutput" to'
      | none => data
    else if eventType = "file_read" ∨ eventType = "file_write" then
      let data := match entry.file_path with
        | some fp => mapInsert data "filePath" (.str fp)
        | none => data
      match entry.action with
      | some action => mapInsert data "action" (.str action)
      | none => data
    else data
  match entry.conversation_id with
  | some cid => mapInsert data "conversationId" (.str cid)
  | none => data

/-- `ClaudeAdapter::extract_metrics` (src/rust/devlog-adapters/src/claude.rs:144-156). -/
def claudeExtractMetrics (entry : ClaudeLogEntry) : Option EventMetrics :=
  if entry.tokens_used = none ∧ entry.prompt_tokens = none ∧
      entry.response_tokens = none then
    none
  else
    some ⟨entry.tokens_used, none, entry.prompt_tokens, entry.response_tokens, none⟩

/-- `ClaudeAdapter::parse_log_line` (src/rust/devlog-adapters/src/claude.rs:165-199).
`decode` is serde_json's decoder for `ClaudeLogEntry` (its failure is the
`Err(_) => return Ok(None)` arm); `newId` the generated UUID; `projectId`
the adapter's configured project string.  The outer `Option` models
control flow that can panic: `none` is the `parse_timestamp` unwrap panic,
`some r` a normal return of `r`. -/
def claudeParseLogLine (decode : String → Option ClaudeLogEntry)
    (rfc : String → Option Int) (now : Int) (newId : String) (projectId : String)
    (line : String) : Option (Except String (Option AgentEvent)) :=
  let line := line.trim
  if line.isEmpty then some (.ok none)
  else
    match decode line with
    | none => some (.ok none)
    | some entry =>
      match claudeDetectEventType entry with
      | none => some (.ok none)
      | some eventType =>
        match claudeParseTimestamp rfc now entry.timestamp with
        | none => none
        | some timestamp =>
          some (.ok (some
            { id := newId
              timestamp := timestamp
              event_type := eventType
              agent_id := "claude"
              agent_version := ""
              session_id := entry.conversation_id.getD ""
              project_id := 0
              machine_id := none
              workspace_id := none
              legacy_project_id := some projectId
              context := claudeExtractContext entry
              data := claudeExtractData entry eventType
              metrics := claudeExtractMetrics entry }))

/-- `CursorLogEntry` (src/rust/devlog-adapters/src/cursor.rs:271-293). -/
structure CursorLogEntry where
  timestamp : Json
  level : Option String
  message : String
  event_type : Option String
  session_id : Option String
  conversation_id : Option String
  model : Option String
  prompt : Option String
  response : Option String
  tokens : Option Int
  prompt_tokens : Option Int
  completion_tokens : Option Int
  tool : Option String
  tool_args : Option Json
  file : Option String
  operation : Option String
  metadata : Option (List (String × Json))

/-- `CursorAdapter::detect_event_type` (src/rust/devlog-adapters/src/cursor.rs:27-65). -/
def cursorDetectEventType (entry : CursorLogEntry) : Option String :=
  let byType : Option String :=
    match entry.event_type with
    | some t =>
      if t = "llm_request" ∨ t = "prompt" ∨ t = "completion_request" then
        some "llm_request"
      else if t = "llm_response" ∨ t = "completion" ∨ t = "completion_response" then
        some "llm_response"
      else if t = "tool_use" ∨ t = "tool_call" then some "tool_use"
      else if t = "file_read" then some "file_read"
      else if t = "file_write" ∨ t = "file_modify" then some "file_write"
      else none
    | none => none
  match byType with
  | some t => some t
  | none =>
    let msgLower := entry.message.toLower
    if entry.prompt.isSome ∨ containsSubstr msgLower "prompt" ∨
        containsSubstr msgLower "request" then
      some "llm_request"
    else if entry.response.isSome ∨ containsSubstr msgLower "response" ∨
        containsSubstr msgLower "completion" then
      some "llm_response"
    else if entry.tool.isSome ∨ containsSubstr msgLower "tool" then
      some "tool_use"
    else
      match entry.file, entry.operation with
      | some _, some op =>
        if op = "read" ∨ containsSubstr msgLower "read" then some "file_read"
        else if op = "write" ∨ containsSubstr msgLower "write" then some "file_write"
        else none
      | _, _ => none

/-- `CursorAdapter::extract_context` (src/rust/devlog-adapters/src/cursor.rs:95-113). -/
def cursorExtractContext (entry : CursorLogEntry) : List (String × Json) :=
  let ctx : List (String × Json) := []
  let ctx := match entry.level with
    | some level => mapInsert ctx "logLevel" (.str level)
    | none => ctx
  let ctx := match entry.model with
    | some model => mapInsert ctx "model" (.str model)
    | none => ctx
  match entry.metadata with
  | some metadata => metadata.foldl (fun acc p => mapInsert acc p.1 p.2) ctx
  | none => ctx

/-- `CursorAdapter::extract_data` (src/rust/devlog-adapters/src/cursor.rs:115-153). -/
def cursorExtractData (entry : CursorLogEntry) (eventType : String) :
    List (String × Json) :=
  let data := mapInsert [] "message" (.str entry.message)
  if eventType = "llm_request" then
    match entry.prompt with
    | some prompt =>
      mapInsert (mapInsert data "prompt" (.str prompt)) "promptLength"
        (.num prompt.utf8ByteSize)
    | none => data
  else if eventType = "llm_response" then
    match entry.response with
    | some response =>
      mapInsert (mapInsert data "response" (.str response)) "responseLength"
        (.num response.utf8ByteSize)
    | none => data
  else if eventType = "tool_use" then
    let data := match entry.tool with
      | some tool => mapInsert data "toolName" (.str tool)
      | none => data
    match entry.tool_args with
    | some args => mapInsert data "toolArgs" args
    | none => data
  else if eventType = "file_read" ∨ eventType = "file_write" then
    let data := match entry.file with
      | some file => mapInsert data "filePath" (.str file)
      | none => data
    match entry.operation with
    | some operation => mapInsert data "operation" (.str operation)
    | none => data
  else data

/-- `CursorAdapter::extract_metrics` (src/rust/devlog-adapters/src/cursor.rs:155-167). -/
def cursorExtractMetrics (entry : CursorLogEntry) : Option EventMetrics :=
  if entry.tokens = none ∧ entry.prompt_tokens = none ∧
      entry.completion_tokens = none then
    none
  else
    some ⟨entry.tokens, none, entry.prompt_tokens, entry.completion_tokens, none⟩

/-- `CursorAdapter::parse_plain_text_line` (src/rust/devlog-adapters/src/cursor.rs:169-196):
keyword heuristic over the lowercased line; a hit yields a minimal
`user_interaction` event with the raw line preserved. -/
def cursorParsePlainTextLine (now : Int) (newId newSession : String)
    (projectId : String) (line : String) : Option AgentEvent :=
  let lower := line.toLower
  if ¬ containsSubstr lower "ai" ∧ ¬ containsSubstr lower "completion" ∧
      ¬ containsSubstr lower "prompt" ∧ ¬ containsSubstr lower "tool" then
    none
  else
    some
      { id := newId
        timestamp := now
        event_type := "user_interaction"
        agent_id := "cursor"
        agent_version := ""
        session_id := newSession
        project_id := 0
        machine_id := none
        workspace_id := none
        legacy_project_id := some projectId
        context := []
        data := [("rawLog", .str line)]
        metrics := none }

/-- `CursorAdapter::parse_log_line` (src/rust/devlog-adapters/src/cursor.rs:205-241).
Same conventions as `claudeParseLogLine`; a serde failure falls back to the
plain-text heuristic instead of erroring. -/
def cursorParseLogLine (decode : String → Option CursorLogEntry)
    (rfc : String → Option Int) (fmtParse : String → String → Option Int)
    (now : Int) (newId newSession : String) (projectId : String)
    (line : String) : Option (Except String (Option AgentEvent)) :=
  let line := line.trim
  if line.isEmpty then some (.ok none)
  else
    match decode line with
    | none => some (.ok (cursorParsePlainTextLine now newId newSession projectId line))
    | some entry =>
      match cursorDetectEventType entry with
      | none => some (.ok none)
      | some eventType =>
        match cursorParseTimestamp rfc fmtParse now entry.timestamp with
        | none => none
        | some timestamp =>
          some (.ok (some
            { id := newId
              timestamp := timestamp
              event_type := eventType
              agent_id := "cursor"
              agent_version := ""
              session_id := (entry.session_id.orElse fun _ =>
                entry.conversation_id).getD newSession
              project_id := 0
              machine_id := none
              workspace_id := none
              legacy_project_id := some projectId
              context := cursorExtractContext entry
              data := cursorExtractData entry eventType
              metrics := cursorExtractMetrics entry }))

/-- The fixed message of `CopilotAdapter::parse_log_line`. -/
def copilotLineErr : String := "line-based parsing not supported for Copilot chat sessions"

/-- `CopilotAdapter::parse_log_line` (src/rust/devlog-adapters/src/copilot.rs:100-102):
unconditionally an error, for every input line. -/
def copilotParseLogLine (_line : String) : Except String (Option AgentEvent) :=
  .error copilotLineErr

/-- `CopilotResponseItem` (src/rust/devlog-adapters/src/copilot.rs:296-302). -/
structure CopilotResponseItem where
  kind : Option String
  value : Json
  tool_id : Option String
  tool_name : Option String

/-- `CopilotVariable` (src/rust/devlog-adapters/src/copilot.rs:310-313). -/
structure CopilotVariable where
  name : String
  value : List (String × Json)

/-- `CopilotRequest` (src/rust/devlog-adapters/src/copilot.rs:278-287). -/
structure CopilotRequest where
  request_id : String
  timestamp : Json
  model_id : String
  message_text : String
  response : List CopilotResponseItem
  variable_data : List CopilotVariable
  is_canceled : Bool

/-- `CopilotChatSession` (src/rust/devlog-adapters/src/copilot.rs:270-274). -/
structure CopilotChatSession where
  version : Int
  requester_username : String
  requests : List CopilotRequest

/-- `CopilotAdapter::extract_value_as_string` (src/rust/devlog-adapters/src/copilot.rs:64-75). -/
def copilotExtractValueAsString (val : Json) : String :=
  match val with
  | .str s => s
  | .arr elems =>
    String.intercalate "\n" (elems.filterMap fun v =>
      match v with
      | .str s => some s
      | _ => none)
  | _ => ""

/-- `CopilotAdapter::extract_file_path` (src/rust/devlog-adapters/src/copilot.rs:77-87). -/
def copilotExtractFilePath (uri : List (String × Json)) : String :=
  match jGet uri "path" with
  | some (.str p) => p
  | _ =>
    match jGet uri "fsPath" with
    | some (.str p) => p
    | _ => ""

/-- Fields shared by every synthetic sub-event of one Copilot request. -/
def copilotBaseEvent (newId : String) (timestamp : Int) (eventType : String)
    (sessionId projectId : String) : AgentEvent :=
  { id := newId
    timestamp := timestamp
    event_type := eventType
    agent_id := "github-copilot"
    agent_version := "1.0.0"
    session_id := sessionId
    project_id := 0
    machine_id := none
    workspace_id := none
    legacy_project_id := some projectId
    context := []
    data := []
    metrics := none }

/-- Step of the file-reference fold inside `parse_log_file`
(src/rust/devlog-adapters/src/copilot.rs:151-174): one `file_read` event at
the parent timestamp `t` per variable with a non-empty extracted path. -/
def copilotFileRefStep (mkId : Nat → String) (projectId sessionId reqId : String)
    (t : Int) (acc : List AgentEvent × Nat) (var : CopilotVariable) :
    List AgentEvent × Nat :=
  let filePath := copilotExtractFilePath var.value
  if filePath.isEmpty then acc
  else
    (acc.1 ++ [{ copilotBaseEvent (mkId acc.2) t "file_read" sessionId projectId with
      data := [("requestId", .str reqId), ("filePath", .str filePath),
               ("variableName", .str var.name)] }], acc.2 + 1)

/-- Step of the response-item fold inside `parse_log_file`
(src/rust/devlog-adapters/src/copilot.rs:176-228): free text accumulates
into the response body, a serialized tool invocation emits a `tool_use`
event at `t+100ms`, a text-edit group a `file_modify` event at `t+200ms`. -/
def copilotRespItemStep (mkId : Nat → String) (projectId sessionId reqId : String)
    (t : Int) (acc : List AgentEvent × List String × Nat)
    (item : CopilotResponseItem) : List AgentEvent × List String × Nat :=
  match item.kind with
  | none =>
    let text := copilotExtractValueAsString item.value
    if text.isEmpty then acc else (acc.1, acc.2.1 ++ [text], acc.2.2)
  | some kind =>
    if kind = "toolInvocationSerialized" then
      (acc.1 ++ [{ copilotBaseEvent (mkId acc.2.2) (t + 100) "tool_use"
          sessionId projectId with
        data := [("requestId", .str reqId),
                 ("toolId", .str (item.tool_id.getD "")),
                 ("toolName", .str (item.tool_name.getD ""))] }],
       acc.2.1, acc.2.2 + 1)
    else if kind = "textEditGroup" then
      (acc.1 ++ [{ copilotBaseEvent (mkId acc.2.2) (t + 200) "file_modify"
          sessionId projectId with
        data := [("requestId", .str reqId)] }],
       acc.2.1, acc.2.2 + 1)
    else acc

/-- The synthetic sub-events `CopilotAdapter::parse_log_file` emits for one
non-canceled request whose timestamp parsed to `t`
(src/rust/devlog-adapters/src/copilot.rs:118-253): the llm_request at `t`,
one file_read per non-empty variable path at `t`, a tool_use at `t+100ms`
per serialized tool invocation and a file_modify at `t+200ms` per text-edit
group (in response-item order), and the llm_response at `t+1000ms`.
`mkId` is the UUID source indexed by a freshness counter `k`; `est` is the
float-based `estimate_tokens` heuristic. -/
def copilotRequestEvents (est : String → Int) (mkId : Nat → String)
    (projectId sessionId workspaceId username : String)
    (req : CopilotRequest) (t : Int) (k : Nat) : List AgentEvent × Nat :=
  let promptText := req.message_text
  let reqEvent :=
    { copilotBaseEvent (mkId k) t "llm_request" sessionId projectId with
      context := [("username", .str username), ("workspaceId", .str workspaceId)]
      data := [("requestId", .str req.request_id), ("modelId", .str req.model_id),
               ("prompt", .str promptText),
               ("promptLength", .num promptText.utf8ByteSize)]
      metrics := some ⟨none, none, some (est promptText), none, none⟩ }
  let k := k + 1
  let (fileEvents, k) := req.variable_data.foldl
    (copilotFileRefStep mkId projectId sessionId req.request_id t) ([], k)
  let (midEvents, textParts, k) := req.response.foldl
    (copilotRespItemStep mkId projectId sessionId req.request_id t) ([], [], k)
  let responseText := String.intercalate "" textParts
  let respEvent :=
    { copilotBaseEvent (mkId k) (t + 1000) "llm_response" sessionId projectId with
      data := [("requestId", .str req.request_id), ("response", .str responseText),
               ("responseLength", .num responseText.utf8ByteSize)]
      metrics := some ⟨none, none, none, some (est responseText), none⟩ }
  (reqEvent :: fileEvents ++ midEvents ++ [respEvent], k + 1)

/-- `CopilotAdapter::parse_log_file` (src/rust/devlog-adapters/src/copilot.rs:104-257)
after the file has been read and decoded into a `CopilotChatSession`
(I/O and serde failures are upstream `Err` returns and not modelled here);
`sessionId`/`workspaceId` are the values extracted from the file path.
Canceled requests are skipped.  The outer `Option` is `none` when any
request's `parse_timestamp` unwrap panics. -/
def copilotParseLogFile (rfc : String → Option Int) (est : String → Int)
    (mkId : Nat → String) (projectId sessionId workspaceId : String) (now : Int)
    (session : CopilotChatSession) : Option (List AgentEvent) :=
  go session.requests 0
where
  go : List CopilotRequest → Nat → Option (List AgentEvent)
    | [], _ => some []
    | req :: rest, k =>
      if req.is_canceled then go rest k
      else
        match copilotParseTimestamp rfc now req.timestamp with
        | none => none
        | some t =>
          let (events, k') := copilotRequestEvents est mkId projectId sessionId
            workspaceId session.requester_username req t k
          (go rest k').map fun tail => events ++ tail

/-! ## Buffer Store (src/rust/devlog-buffer/src/lib.rs)

The `events` table is a list of rows in rowid (insertion) order.
`created_at` is the wall-clock second `Utc::now().timestamp()` taken at
insert time, supplied here as the `now` argument of `store`. -/

/-- One row of the `events` table (src/rust/devlog-buffer/src/lib.rs:44-53).
The `data` column holds the serialized event payload; the value-to-text
layer of serde_json is factored out, so the column is modelled at the
JSON-value level. -/
structure BufferRow where
  event_id : String
  timestamp : Int
  agent_id : String
  session_id : String
  project_id : Int
  data : Json
  created_at : Int

/-- The in-memory handle of `Buffer` (src/rust/devlog-buffer/src/lib.rs:7-10):
the connected table plus the configured maximum. -/
structure Buffer where
  rows : List BufferRow
  max_size : Nat

/-- The maximum `Buffer::new` configures (src/rust/devlog-buffer/src/lib.rs:33):
10000 when the configured value is unset (zero). -/
def bufferMaxSize (configMax : Nat) : Nat :=
  if configMax = 0 then 10000 else configMax

/-- `Buffer::new` (src/rust/devlog-buffer/src/lib.rs:18-39): connects to the
database (whose table may already hold rows from a previous run) and fixes
the maximum. -/
def Buffer.new (existing : List BufferRow) (configMax : Nat) : Buffer :=
  ⟨existing, bufferMaxSize configMax⟩

/-- `Buffer::count` (src/rust/devlog-buffer/src/lib.rs:127-134). -/
def Buffer.count (b : Buffer) : Nat := b.rows.length

/-- The row `DELETE FROM events WHERE id = (SELECT id FROM events ORDER BY
created_at ASC LIMIT 1)` removes: the first row, in rowid order, whose
`created_at` is minimal (SQLite's created_at index breaks ties by rowid). -/
def removeOldest : List BufferRow → List BufferRow
  | [] => []
  | r :: rs =>
    if rs.all fun x => r.created_at ≤ x.created_at then rs
    else r :: removeOldest rs

/-- `Buffer::evict_oldest` (src/rust/devlog-buffer/src/lib.rs:136-144). -/
def Buffer.evictOldest (b : Buffer) : Buffer :=
  { b with rows := removeOldest b.rows }

/-- The row `Buffer::store` inserts for `event` at wall-clock second `now`
(src/rust/devlog-buffer/src/lib.rs:73-87): indexed scalar columns plus the
serialized payload.  `event.timestamp.timestamp()` floors milliseconds to
seconds. -/
def mkRow (tsEnc : Int → String) (event : AgentEvent) (now : Int) : BufferRow :=
  { event_id := event.id
    timestamp := Int.ediv event.timestamp 1000
    agent_id := event.agent_id
    session_id := event.session_id
    project_id := event.project_id
    data := eventToJson tsEnc event
    created_at := now }

/-- `Buffer::store` (src/rust/devlog-buffer/src/lib.rs:64-90): when the
current count is at or above the maximum, evict one row first, then insert. -/
def Buffer.store (b : Buffer) (tsEnc : Int → String) (event : AgentEvent)
    (now : Int) : Buffer :=
  let b := if b.count ≥ b.max_size then b.evictOldest else b
  { b with rows := b.rows ++ [mkRow tsEnc event now] }

/-- Stable insertion into a list ordered by `created_at` (rows with equal
stamps keep rowid order), modelling the created_at index scan of
`ORDER BY created_at ASC`. -/
def insByCreated (r : BufferRow) : List BufferRow → List BufferRow
  | [] => [r]
  | x :: xs =>
    if x.created_at ≤ r.created_at then x :: insByCreated r xs
    else r :: x :: xs

/-- Rows in `ORDER BY created_at ASC` order (stable in rowid). -/
def sortByCreated : List BufferRow → List BufferRow
  | [] => []
  | r :: rs => insByCreated r (sortByCreated rs)

/-- `Buffer::retrieve` (src/rust/devlog-buffer/src/lib.rs:92-106): the first
`limit` rows by insertion time, each deserialized from its payload column;
a payload that fails to deserialize is the `?`-propagated serde error. -/
def Buffer.retrieve (b : Buffer) (tsDec : String → Option Int) (limit : Nat) :
    Except String (List AgentEvent) :=
  ((sortByCreated b.rows).take limit).foldr
    (fun r acc =>
      match eventFromJson tsDec r.data with
      | some e => acc.map fun es => e :: es
      | none => .error "failed to deserialize event payload")
    (.ok [])

/-- `Buffer::delete` (src/rust/devlog-buffer/src/lib.rs:108-125): removes the
rows whose `event_id` is listed; unknown ids match nothing. -/
def Buffer.deleteIds (b : Buffer) (eventIds : List String) : Buffer :=
  if eventIds.isEmpty then b
  else { b with rows := b.rows.filter fun r => ¬ eventIds.contains r.event_id }

/-- `Buffer::clear` (src/rust/devlog-buffer/src/lib.rs:146-149). -/
def Buffer.clear (b : Buffer) : Buffer := { b with rows := [] }

/-! ## Backfill Engine (src/rust/devlog-backfill/src/lib.rs)

The `backfill_state` row for one (agent, file) pair is threaded as a
record; `save_state` writes are modelled as an append-only log `saves`
(the durable row always equals the log's last entry).  The Buffer Store
sink is abstracted to the list of events appended to it, in order, since
only delivery order and content matter to the claims. -/

/-- `BackfillStatus` (src/rust/devlog-backfill/src/lib.rs:20-27). -/
inductive BackfillStatus where
  | new
  | inProgress
  | paused
  | completed
  | failed
deriving Repr, DecidableEq

/-- `BackfillState` (src/rust/devlog-backfill/src/lib.rs:54-65);
instants in epoch milliseconds. -/
structure BackfillState where
  id : Int
  agent_name : String
  log_file_path : String
  last_byte_offset : Int
  last_timestamp : Option Int
  total_events_processed : Int
  status : BackfillStatus
  started_at : Int
  completed_at : Option Int
  error_message : Option String
deriving Repr, DecidableEq

/-- The byte length of a line as the streaming loop counts it
(src/rust/devlog-backfill/src/lib.rs:241): UTF-8 bytes plus one newline. -/
def lineByteLen (line : String) : Int := (line.utf8ByteSize : Int) + 1

/-- Total byte length of a newline-terminated line file (the value of
`file.metadata().len()` for such a file). -/
def fileByteSize (lines : List String) : Int :=
  (lines.map lineByteLen).sum

/-- One batch flush of the streaming loop
(src/rust/devlog-backfill/src/lib.rs:248-259 and 262-272): store each
batched event in the Buffer Store, advance the counters to the current
offset, record the last event's timestamp, and persist the checkpoint as
one `save_state` write. -/
def flushBatch (batch : List AgentEvent) (offset : Int) (st : BackfillState)
    (buf : List AgentEvent) (saves : List BackfillState) :
    BackfillState × List AgentEvent × List BackfillState :=
  let st' :=
    { st with
      total_events_processed := st.total_events_processed + batch.length
      last_byte_offset := offset
      last_timestamp := match batch.getLast? with
        | some e => some e.timestamp
        | none => st.last_timestamp }
  (st', buf ++ batch, saves ++ [st'])

/-- The `while let Some(line) = lines.next_line()` loop of
`BackfillManager::backfill_file_line_by_line`
(src/rust/devlog-backfill/src/lib.rs:240-260).  Carries the pending batch,
the running byte offset, the checkpoint state, the Buffer Store sink and
the save log; returns them together with `some msg` when
`adapter.parse_log_line(&line)?` propagated an error. -/
def lineLoop (parse : String → Except String (Option AgentEvent)) (batchSize : Nat) :
    List String → List AgentEvent → Int → BackfillState → List AgentEvent →
    List BackfillState →
    List AgentEvent × Int × BackfillState × List AgentEvent × List BackfillState ×
      Option String
  | [], batch, offset, st, buf, saves => (batch, offset, st, buf, saves, none)
  | line :: rest, batch, offset, st, buf, saves =>
    let offset' := offset + lineByteLen line
    match parse line with
    | .error msg => (batch, offset', st, buf, saves, some msg)
    | .ok oe =>
      let batch' := match oe with
        | some e => batch ++ [e]
        | none => batch
      if batch'.length ≥ batchSize then
        let (st', buf', saves') := flushBatch batch' offset' st buf saves
        lineLoop parse batchSize rest [] offset' st' buf' saves'
      else
        lineLoop parse batchSize rest batch' offset' st buf saves

/-- `BackfillManager::backfill_file_line_by_line`
(src/rust/devlog-backfill/src/lib.rs:227-276).  The seek to
`last_byte_offset` is modelled by the caller passing the unread lines; the
loop starts its byte counter at `st.last_byte_offset`.  After a clean end
of file the remaining partial batch is flushed and the in-memory offset is
forced to the file's total byte length `fileSize`. -/
def backfill_file_line_by_line (parse : String → Except String (Option AgentEvent))
    (batchSize : Nat) (lines : List String) (fileSize : Int) (st : BackfillState)
    (buf : List AgentEvent) (saves : List BackfillState) :
    BackfillState × List AgentEvent × List BackfillState × Except String Unit :=
  match lineLoop parse batchSize lines [] st.last_byte_offset st buf saves with
  | (batch, offset, st1, buf1, saves1, none) =>
    let (st2, buf2, saves2) :=
      if batch.isEmpty then (st1, buf1, saves1)
      else flushBatch batch offset st1 buf1 saves1
    ({ st2 with last_byte_offset := fileSize }, buf2, saves2, .ok ())
  | (_, _, st1, buf1, saves1, some msg) => (st1, buf1, saves1, .error msg)

/-- `BackfillManager::backfill_file` (src/rust/devlog-backfill/src/lib.rs:159-196)
for a line-oriented (streaming) adapter, taking the state already loaded by
`load_state` for this (agent, file) pair.  A Completed state returns
immediately; otherwise the state is marked InProgress and saved before
parsing, and afterwards marked Completed (recording `completed_at := now`)
or Failed (recording the error message, which is also propagated). -/
def backfill_file (parse : String → Except String (Option AgentEvent))
    (batchSize : Nat) (lines : List String) (fileSize : Int) (now : Int)
    (st0 : BackfillState) (buf : List AgentEvent) (saves : List BackfillState) :
    BackfillState × List AgentEvent × List BackfillState × Except String Unit :=
  if st0.status = .completed then (st0, buf, saves, .ok ())
  else
    let st1 := { st0 with status := .inProgress }
    let saves1 := saves ++ [st1]
    match backfill_file_line_by_line parse batchSize lines fileSize st1 buf saves1 with
    | (st2, buf2, saves2, .ok _) =>
      let st3 := { st2 with status := .completed, completed_at := some now }
      (st3, buf2, saves2 ++ [st3], .ok ())
    | (st2, buf2, saves2, .error msg) =>
      let st3 := { st2 with status := .failed, error_message := some msg }
      (st3, buf2, saves2 ++ [st3], .error msg)

/-- The events a parse function recognizes in a list of lines, in order
(the lines for which `parse_log_line` returns `Ok(Some(event))`). -/
def parsedEvents (parse : String → Except String (Option AgentEvent))
    (lines : List String) : List AgentEvent :=
  lines.filterMap fun line =>
    match parse line with
    | .ok (some e) => some e
    | _ => none

/-! ## Theorems -/

/-- Rows ordered by non-decreasing insertion stamp (the wall clock passed
to `store` never goes backwards). -/
def StampsSorted (rows : List BufferRow) : Prop :=
  List.Pairwise (fun a b => a.created_at ≤ b.created_at) rows

theorem removeOldest_of_sorted (rows : List BufferRow) (h : StampsSorted rows) :
    removeOldest rows = rows.tail := by
  cases rows with
  | nil => rfl
  | cons r rs =>
    have hall : rs.all (fun x => decide (r.created_at ≤ x.created_at)) = true := by
      rw [List.all_eq_true]
      intro x hx
      exact decide_eq_true ((List.pairwise_cons.mp h).1 x hx)
    simp only [removeOldest, hall, if_true]
    rfl

theorem bufferMaxSize_pos (configMax : Nat) : 0 < bufferMaxSize configMax := by
  unfold bufferMaxSize
  split <;> omega

/-- Unfolding of `Buffer::store` when the count has reached the maximum:
evict first, then insert. -/
theorem store_eq_of_full (b : Buffer) (tsEnc : Int → String) (e : AgentEvent)
    (now : Int) (h : b.count ≥ b.max_size) :
    b.store tsEnc e now =
      { rows := removeOldest b.rows ++ [mkRow tsEnc e now], max_size := b.max_size } := by
  simp [Buffer.store, Buffer.evictOldest, h]

/-- Unfolding of `Buffer::store` below the maximum: plain insert. -/
theorem store_eq_of_not_full (b : Buffer) (tsEnc : Int → String) (e : AgentEvent)
    (now : Int) (h : ¬ b.count ≥ b.max_size) :
    b.store tsEnc e now =
      { rows := b.rows ++ [mkRow tsEnc e now], max_size := b.max_size } := by
  simp [Buffer.store, Buffer.evictOldest, h]

/-- C1: starting from any buffer whose row count is at most the configured
maximum, a `store` call keeps the count at most the maximum; when the count
is at the maximum, the call removes the oldest row (by insertion stamp)
and still appends the new one, so the insert never fails; and `Buffer::new`
turns an unset (zero) configured maximum into 10,000. -/
theorem C1_store_preserves_capacity (configMax : Nat) (b : Buffer)
    (tsEnc : Int → String) (e : AgentEvent) (now : Int)
    (hmax : b.max_size = bufferMaxSize configMax)
    (hsorted : StampsSorted b.rows)
    (hle : b.count ≤ b.max_size) :
    (b.store tsEnc e now).count ≤ b.max_size
    ∧ (b.store tsEnc e now).max_size = b.max_size
    ∧ (b.count ≥ b.max_size →
        (b.store tsEnc e now).rows = b.rows.tail ++ [mkRow tsEnc e now])
    ∧ bufferMaxSize 0 = 10000 := by
  have hpos : 0 < b.max_size := hmax ▸ bufferMaxSize_pos configMax
  by_cases hc : b.count ≥ b.max_size
  · have hlen : b.rows.length = b.max_size := le_antisymm hle hc
    have htail : removeOldest b.rows = b.rows.tail := removeOldest_of_sorted _ hsorted
    rw [store_eq_of_full b tsEnc e now hc]
    have htl : b.rows.tail.length = b.rows.length - 1 := by cases b.rows <;> simp
    refine ⟨?_, rfl, fun _ => by rw [htail], rfl⟩
    simp only [Buffer.count, List.length_append, htail, htl, List.length_cons,
      List.length_nil]
    omega
  · rw [store_eq_of_not_full b tsEnc e now hc]
    have : b.count < b.max_size := lt_of_not_le hc
    refine ⟨?_, rfl, fun h => absurd h hc, rfl⟩
    simp only [Buffer.count, List.length_append, List.length_cons, List.length_nil] at *
    omega

/-- A concrete canonical event with every optional field present. -/
def evSample : AgentEvent :=
  { id := "ev-1", timestamp := 0, event_type := "llm_request",
    agent_id := "claude", agent_version := "1.0.0", session_id := "sess-1",
    project_id := 7, machine_id := some 2, workspace_id := some 3,
    legacy_project_id := some "proj", context := [("model", .str "m")],
    data := [("message", .str "hello")],
    metrics := some ⟨some 5, none, some 2, some 3, none⟩ }

/-- A concrete canonical event with every optional field absent. -/
def evBare : AgentEvent :=
  { id := "ev-2", timestamp := 0, event_type := "llm_response",
    agent_id := "cursor", agent_version := "", session_id := "sess-2",
    project_id := 0, machine_id := none, workspace_id := none,
    legacy_project_id := none, context := [],
    data := [("message", .str "hi")], metrics := none }

/-- The timestamp codec used by concrete scenarios: decimal encoding,
decoded back only at the stamp 0 the scenarios use. -/
def encTs : Int → String := fun t => toString t

/-- Partial inverse of `encTs` sufficient for the concrete scenarios. -/
def decTs : String → Option Int := fun s => if s = "0" then some 0 else none

theorem C1_store_preserves_capacity_witness :
    (Buffer.new [] 0).max_size = bufferMaxSize 0
    ∧ StampsSorted (Buffer.new [] 0).rows
    ∧ (Buffer.new [] 0).count ≤ (Buffer.new [] 0).max_size
    ∧ ((Buffer.new [] 0).store encTs evSample 5).count ≤ (Buffer.new [] 0).max_size :=
  ⟨rfl, List.Pairwise.nil, by decide,
    (C1_store_preserves_capacity 0 (Buffer.new [] 0) encTs evSample 5 rfl
      List.Pairwise.nil (by decide)).1⟩

/-- C10: a `store` call on a buffer already over the configured maximum
(for example after the maximum was lowered between runs) still evicts only
the single oldest row before inserting, so the count is unchanged and
remains above the maximum — the bound is preserved from compliant states,
never re-established from over-capacity ones. -/
theorem C10_store_evicts_at_most_one (b : Buffer) (tsEnc : Int → String)
    (e : AgentEvent) (now : Int)
    (hsorted : StampsSorted b.rows)
    (hover : b.count > b.max_size) :
    (b.store tsEnc e now).count = b.count
    ∧ (b.store tsEnc e now).count > b.max_size
    ∧ (b.store tsEnc e now).rows = b.rows.tail ++ [mkRow tsEnc e now] := by
  have hc : b.count ≥ b.max_size := le_of_lt hover
  have htail : removeOldest b.rows = b.rows.tail := removeOldest_of_sorted _ hsorted
  rw [store_eq_of_full b tsEnc e now hc]
  have hne : b.rows.length > 0 := lt_of_le_of_lt (Nat.zero_le _) hover
  have htl : b.rows.tail.length = b.rows.length - 1 := by cases b.rows <;> simp
  refine ⟨?_, ?_, by rw [htail]⟩
  · simp only [Buffer.count, List.length_append, htail, htl, List.length_cons,
      List.length_nil] at *
    omega
  · simp only [Buffer.count, List.length_append, htail, htl, List.length_cons,
      List.length_nil] at *
    omega

/-- A two-row table whose count (2) exceeds a lowered maximum of 1. -/
def overfullBuffer : Buffer :=
  Buffer.new [mkRow encTs evSample 1, mkRow encTs evBare 2] 1

theorem overfullBuffer_sorted : StampsSorted overfullBuffer.rows := by
  show List.Pairwise _ overfullBuffer.rows
  decide

theorem overfullBuffer_over : overfullBuffer.count > overfullBuffer.max_size := by
  decide

theorem C10_store_evicts_at_most_one_witness :
    StampsSorted overfullBuffer.rows
    ∧ overfullBuffer.count > overfullBuffer.max_size
    ∧ (overfullBuffer.store encTs evSample 3).count = overfullBuffer.count :=
  ⟨overfullBuffer_sorted, overfullBuffer_over,
   (C10_store_evicts_at_most_one overfullBuffer encTs evSample 3
      overfullBuffer_sorted overfullBuffer_over).1⟩

/-- C5: with the maximum configured to 1, storing `evSample` (event A) and
then `evBare` (event B) leaves exactly one row, and `retrieve(10)` returns
only event B — the evicted row was the oldest by insertion time. -/
theorem C5_capacity_one_fifo :
    (((Buffer.new [] 1).store encTs evSample 1).store encTs evBare 2).count = 1
    ∧ (((Buffer.new [] 1).store encTs evSample 1).store encTs evBare 2).retrieve
        decTs 10 = .ok [evBare] :=
  ⟨rfl, rfl⟩

theorem metrics_roundtrip (m : EventMetrics) :
    metricsFromJson (metricsToJson m) = some m := by
  obtain ⟨tc, dm, pt, rt, c⟩ := m
  cases tc <;> cases dm <;> cases pt <;> cases rt <;> cases c <;> rfl

set_option maxHeartbeats 3200000 in
/-- Normal form of deserializing a just-serialized event: everything is
determined except the timestamp codec round trip and the metrics
sub-object. -/
theorem eventFromJson_eventToJson (tsEnc : Int → String)
    (tsDec : String → Option Int) (e : AgentEvent) :
    eventFromJson tsDec (eventToJson tsEnc e)
      = (tsDec (tsEnc e.timestamp)).bind fun t =>
        (match e.metrics with
         | none => some none
         | some m => (metricsFromJson (metricsToJson m)).map some).bind fun mm =>
        some { e with timestamp := t, metrics := mm } := by
  obtain ⟨id, ts, ety, aid, aver, sid, pid, mid, wid, lpid, ctx, dat, met⟩ := e
  cases mid <;> cases wid <;> cases lpid <;> cases met <;> cases ctx <;> rfl

set_option maxHeartbeats 3200000 in
/-- C6: serializing a canonical event into the Buffer Store's payload
format and deserializing it back (as `retrieve` does) yields the original
event, given the chrono timestamp codec round-trips; and each absent
optional field (machine_id, workspace_id, legacy_project_id, metrics,
empty context) is omitted from the payload rather than written as a
default sentinel. -/
theorem C6_storage_roundtrip (tsEnc : Int → String) (tsDec : String → Option Int)
    (e : AgentEvent) (h : tsDec (tsEnc e.timestamp) = some e.timestamp) :
    eventFromJson tsDec (eventToJson tsEnc e) = some e
    ∧ (e.machine_id = none → jsonHasKey (eventToJson tsEnc e) "machineId" = false)
    ∧ (e.workspace_id = none → jsonHasKey (eventToJson tsEnc e) "workspaceId" = false)
    ∧ (e.legacy_project_id = none →
        jsonHasKey (eventToJson tsEnc e) "legacyProjectId" = false)
    ∧ (e.metrics = none → jsonHasKey (eventToJson tsEnc e) "metrics" = false)
    ∧ (e.context = [] → jsonHasKey (eventToJson tsEnc e) "context" = false) := by
  obtain ⟨id, ts, ety, aid, aver, sid, pid, mid, wid, lpid, ctx, dat, met⟩ := e
  dsimp only at h
  refine ⟨?_, ?_, ?_, ?_, ?_, ?_⟩
  · rw [eventFromJson_eventToJson]
    dsimp only
    rw [h]
    cases met with
    | none => cases mid <;> cases wid <;> cases lpid <;> cases ctx <;> rfl
    | some m =>
      dsimp only
      rw [metrics_roundtrip]
      cases mid <;> cases wid <;> cases lpid <;> cases ctx <;> rfl
  · intro h'
    dsimp only at h'
    subst h'
    cases wid <;> cases lpid <;> cases met <;> cases ctx <;> rfl
  · intro h'
    dsimp only at h'
    subst h'
    cases mid <;> cases lpid <;> cases met <;> cases ctx <;> rfl
  · intro h'
    dsimp only at h'
    subst h'
    cases mid <;> cases wid <;> cases met <;> cases ctx <;> rfl
  · intro h'
    dsimp only at h'
    subst h'
    cases mid <;> cases wid <;> cases lpid <;> cases ctx <;> rfl
  · intro h'
    dsimp only at h'
    subst h'
    cases mid <;> cases wid <;> cases lpid <;> cases met <;> rfl

theorem C6_storage_roundtrip_witness :
    decTs (encTs evBare.timestamp) = some evBare.timestamp
    ∧ eventFromJson decTs (eventToJson encTs evBare) = some evBare
    ∧ jsonHasKey (eventToJson encTs evBare) "machineId" = false :=
  ⟨rfl, (C6_storage_roundtrip encTs decTs evBare rfl).1,
   (C6_storage_roundtrip encTs decTs evBare rfl).2.1 rfl⟩

/-- A line-parse outcome that is not a returned error (it may be a normal
return or, for out-of-range timestamps, the modelled unwrap panic — but
never an `Err`). -/
def NotLineError : Option (Except String (Option AgentEvent)) → Prop
  | some (.error _) => False
  | _ => True

/-- C3 counterexample: the Copilot adapter's `parse_log_line` propagates an
error for every input line — including unrecognized or malformed ones —
instead of returning absent, contradicting the claim that no adapter ever
propagates a parse error for unrecognized input. -/
theorem C3_counterexample :
    copilotParseLogLine "not an event" = .error copilotLineErr := rfl

/-- C3 (amended): the line-oriented adapters (Claude, Cursor) never return
an error from `parse_log_line` — empty, malformed and unrecognized lines
all yield absent (or the plain-text fallback event), for every serde
decoder and timestamp-parser behaviour; the Copilot adapter, by contrast,
returns an error for every line unconditionally. -/
theorem C3_line_errors_never_returned :
    (∀ (decode : String → Option ClaudeLogEntry) (rfc : String → Option Int)
        (now : Int) (newId projectId line : String),
        NotLineError (claudeParseLogLine decode rfc now newId projectId line))
    ∧ (∀ (decode : String → Option CursorLogEntry) (rfc : String → Option Int)
        (fmtParse : String → String → Option Int) (now : Int)
        (newId newSession projectId line : String),
        NotLineError
          (cursorParseLogLine decode rfc fmtParse now newId newSession projectId line))
    ∧ (∀ line : String, copilotParseLogLine line = .error copilotLineErr) := by
  refine ⟨?_, ?_, fun _ => rfl⟩
  · intro decode rfc now newId projectId line
    unfold claudeParseLogLine
    dsimp only
    split
    · trivial
    · split
      · trivial
      · split
        · trivial
        · split <;> trivial
  · intro decode rfc fmtParse now newId newSession projectId line
    unfold cursorParseLogLine
    dsimp only
    split
    · trivial
    · split
      · cases cursorParsePlainTextLine now newId newSession projectId line.trim <;> trivial
      · split
        · trivial
        · split <;> trivial

/-- Epoch seconds inside chrono's representable datetime range. -/
def secsInChronoRange (n : Int) : Prop :=
  chronoMinSecs ≤ n ∧ n ≤ chronoMaxSecs

/-- Epoch milliseconds inside chrono's representable datetime range. -/
def msInChronoRange (n : Int) : Prop :=
  chronoMinSecs * 1000 ≤ n ∧ n ≤ chronoMaxSecs * 1000 + 999

/-- Timestamp values on which a seconds-based `timestamp_opt(..).unwrap()`
cannot panic: everything except an i64-representable integer outside
chrono's seconds range. -/
def secsTsInDomain : Json → Prop
  | .num n => asI64 n = none ∨ secsInChronoRange n
  | _ => True

/-- Timestamp values on which `timestamp_millis_opt(..).unwrap()` cannot
panic: everything except an i64-representable integer outside chrono's
milliseconds range. -/
def msTsInDomain : Json → Prop
  | .num n => asI64 n = none ∨ msInChronoRange n
  | _ => True

/-- C7 counterexample: the Copilot adapter's timestamp normalization is not
total — on the numeric timestamp value i64::MAX (9223372036854775807,
interpreted as epoch milliseconds) `Utc.timestamp_millis_opt(..).unwrap()`
panics (modelled as `none`) instead of falling back to now. -/
theorem C7_counterexample :
    copilotParseTimestamp (fun _ => none) 0 (.num 9223372036854775807) = none := by
  decide

/-- C7 (amended): timestamp normalization never aborts — falling back to
now on any unparsed string, any non-numeric value, and any number that
does not fit in an i64 — except when the value is an i64 integer outside
chrono's representable range, where the `.unwrap()` panics; on every
in-domain input all three adapters return a timestamp. -/
theorem C7_timestamp_total_in_domain :
    (∀ (rfc : String → Option Int) (now : Int) (ts : Json), msTsInDomain ts →
        ∃ t, copilotParseTimestamp rfc now ts = some t)
    ∧ (∀ (rfc : String → Option Int) (now : Int) (ts : Json), secsTsInDomain ts →
        ∃ t, claudeParseTimestamp rfc now ts = some t)
    ∧ (∀ (rfc : String → Option Int) (fmtParse : String → String → Option Int)
        (now : Int) (ts : Json), secsTsInDomain ts →
        ∃ t, cursorParseTimestamp rfc fmtParse now ts = some t) := by
  have hAs : ∀ (n m : Int), asI64 n = some m → m = n := by
    intro n m has
    unfold asI64 at has
    split at has
    · exact (Option.some.inj has).symm
    · exact absurd has (by simp)
  refine ⟨?_, ?_, ?_⟩
  · intro rfc now ts hdom
    cases ts with
    | num n =>
      cases has : asI64 n with
      | none => exact ⟨now, by simp [copilotParseTimestamp, has]⟩
      | some m =>
        have hm : m = n := hAs n m has
        subst hm
        have hrange : msInChronoRange m := by
          rcases hdom with h | h
          · rw [has] at h
            exact absurd h (by simp)
          · exact h
        refine ⟨m, ?_⟩
        simp only [copilotParseTimestamp, has]
        unfold msInChronoRange at hrange
        unfold timestampMillisOpt
        rw [if_pos hrange]
    | str s =>
      cases hr : rfc s with
      | none => exact ⟨now, by simp [copilotParseTimestamp, hr]⟩
      | some t => exact ⟨t, by simp [copilotParseTimestamp, hr]⟩
    | null => exact ⟨now, by simp [copilotParseTimestamp]⟩
    | bool b => exact ⟨now, by simp [copilotParseTimestamp]⟩
    | arr xs => exact ⟨now, by simp [copilotParseTimestamp]⟩
    | obj fs => exact ⟨now, by simp [copilotParseTimestamp]⟩
  · intro rfc now ts hdom
    cases ts with
    | num n =>
      cases has : asI64 n with
      | none => exact ⟨now, by simp [claudeParseTimestamp, has]⟩
      | some m =>
        have hm : m = n := hAs n m has
        subst hm
        have hrange : secsInChronoRange m := by
          rcases hdom with h | h
          · rw [has] at h
            exact absurd h (by simp)
          · exact h
        refine ⟨m * 1000, ?_⟩
        simp only [claudeParseTimestamp, has]
        unfold secsInChronoRange at hrange
        unfold timestampOpt
        rw [if_pos hrange]
    | str s =>
      cases hr : rfc s with
      | none => exact ⟨now, by simp [claudeParseTimestamp, hr]⟩
      | some t => exact ⟨t, by simp [claudeParseTimestamp, hr]⟩
    | null => exact ⟨now, by simp [claudeParseTimestamp]⟩
    | bool b => exact ⟨now, by simp [claudeParseTimestamp]⟩
    | arr xs => exact ⟨now, by simp [claudeParseTimestamp]⟩
    | obj fs => exact ⟨now, by simp [claudeParseTimestamp]⟩
  · intro rfc fmtParse now ts hdom
    cases ts with
    | num n =>
      cases has : asI64 n with
      | none => exact ⟨now, by simp [cursorParseTimestamp, has]⟩
      | some m =>
        have hm : m = n := hAs n m has
        subst hm
        have hrange : secsInChronoRange m := by
          rcases hdom with h | h
          · rw [has] at h
            exact absurd h (by simp)
          · exact h
        refine ⟨m * 1000, ?_⟩
        simp only [cursorParseTimestamp, has]
        unfold secsInChronoRange at hrange
        unfold timestampOpt
        rw [if_pos hrange]
    | str s => exact ⟨_, rfl⟩
    | null => exact ⟨now, by simp [cursorParseTimestamp]⟩
    | bool b => exact ⟨now, by simp [cursorParseTimestamp]⟩
    | arr xs => exact ⟨now, by simp [cursorParseTimestamp]⟩
    | obj fs => exact ⟨now, by simp [cursorParseTimestamp]⟩

theorem C7_timestamp_total_in_domain_witness :
    msTsInDomain (.str "yesterday")
    ∧ (∃ t, copilotParseTimestamp (fun _ => none) 7 (.str "yesterday") = some t)
    ∧ secsTsInDomain (.num 1700000000)
    ∧ (∃ t, claudeParseTimestamp (fun _ => none) 7 (.num 1700000000) = some t) :=
  ⟨trivial,
   (C7_timestamp_total_in_domain.1 (fun _ => none) 7 (.str "yesterday") trivial),
   Or.inr (by constructor <;> decide),
   (C7_timestamp_total_in_domain.2.1 (fun _ => none) 7 (.num 1700000000)
     (Or.inr (by constructor <;> decide)))⟩

/-- C4: invoking backfill on a file whose loaded Backfill State is already
Completed is a no-op — it returns success immediately, appends nothing to
the Buffer Store, writes no state, and leaves the state record unchanged
(so a second invocation returns exactly the same thing). -/
theorem C4_completed_backfill_noop (parse : String → Except String (Option AgentEvent))
    (batchSize : Nat) (lines : List String) (fileSize now : Int)
    (st0 : BackfillState) (buf : List AgentEvent) (saves : List BackfillState)
    (h : st0.status = .completed) :
    backfill_file parse batchSize lines fileSize now st0 buf saves
      = (st0, buf, saves, .ok ()) := by
  simp [backfill_file, h]

/-- A concrete Backfill State marked Completed. -/
def stCompleted : BackfillState :=
  { id := 1, agent_name := "claude", log_file_path := "/tmp/a.log",
    last_byte_offset := 42, last_timestamp := some 5,
    total_events_processed := 3, status := .completed, started_at := 0,
    completed_at := some 9, error_message := none }

theorem C4_completed_backfill_noop_witness :
    stCompleted.status = BackfillStatus.completed
    ∧ backfill_file copilotParseLogLine 2 ["x"] 2 11 stCompleted [] []
        = (stCompleted, [], [], .ok ()) :=
  ⟨rfl, C4_completed_backfill_noop copilotParseLogLine 2 ["x"] 2 11 stCompleted [] [] rfl⟩

theorem fileByteSize_cons (line : String) (rest : List String) :
    fileByteSize (line :: rest) = lineByteLen line + fileByteSize rest := by
  simp [fileByteSize]

theorem parsedEvents_cons_some (parse : String → Except String (Option AgentEvent))
    {line : String} {e : AgentEvent} (rest : List String)
    (hr : parse line = .ok (some e)) :
    parsedEvents parse (line :: rest) = e :: parsedEvents parse rest := by
  simp only [parsedEvents, List.filterMap_cons, hr]

theorem parsedEvents_cons_none (parse : String → Except String (Option AgentEvent))
    {line : String} (rest : List String) (hr : parse line = .ok none) :
    parsedEvents parse (line :: rest) = parsedEvents parse rest := by
  simp only [parsedEvents, List.filterMap_cons, hr]

/-- `flushBatch` in terms of its inputs: events appended to the sink, one
checkpoint save appended, counters advanced, status untouched. -/
theorem flushBatch_spec (batch : List AgentEvent) (offset : Int)
    (st : BackfillState) (buf : List AgentEvent) (saves : List BackfillState) :
    (flushBatch batch offset st buf saves).2.1 = buf ++ batch
    ∧ (flushBatch batch offset st buf saves).2.2
        = saves ++ [(flushBatch batch offset st buf saves).1]
    ∧ (flushBatch batch offset st buf saves).1.total_events_processed
        = st.total_events_processed + batch.length
    ∧ (flushBatch batch offset st buf saves).1.status = st.status
    ∧ (flushBatch batch offset st buf saves).1.last_byte_offset = offset :=
  ⟨rfl, rfl, rfl, rfl, rfl⟩

theorem lineLoop_cons_err (parse : String → Except String (Option AgentEvent))
    (batchSize : Nat) {line : String} {msg : String} (rest : List String)
    (batch : List AgentEvent) (offset : Int) (st : BackfillState)
    (buf : List AgentEvent) (saves : List BackfillState)
    (hr : parse line = .error msg) :
    lineLoop parse batchSize (line :: rest) batch offset st buf saves
      = (batch, offset + lineByteLen line, st, buf, saves, some msg) := by
  simp only [lineLoop]
  rw [hr]

theorem lineLoop_cons_some_flush (parse : String → Except String (Option AgentEvent))
    (batchSize : Nat) {line : String} {e : AgentEvent} (rest : List String)
    (batch : List AgentEvent) (offset : Int) (st : BackfillState)
    (buf : List AgentEvent) (saves : List BackfillState)
    (hr : parse line = .ok (some e))
    (hf : (batch ++ [e]).length ≥ batchSize) :
    lineLoop parse batchSize (line :: rest) batch offset st buf saves
      = lineLoop parse batchSize rest [] (offset + lineByteLen line)
          (flushBatch (batch ++ [e]) (offset + lineByteLen line) st buf saves).1
          (flushBatch (batch ++ [e]) (offset + lineByteLen line) st buf saves).2.1
          (flushBatch (batch ++ [e]) (offset + lineByteLen line) st buf saves).2.2 := by
  simp only [lineLoop]
  rw [hr]
  dsimp only
  rw [if_pos hf]

theorem lineLoop_cons_some_stay (parse : String → Except String (Option AgentEvent))
    (batchSize : Nat) {line : String} {e : AgentEvent} (rest : List String)
    (batch : List AgentEvent) (offset : Int) (st : BackfillState)
    (buf : List AgentEvent) (saves : List BackfillState)
    (hr : parse line = .ok (some e))
    (hf : ¬ (batch ++ [e]).length ≥ batchSize) :
    lineLoop parse batchSize (line :: rest) batch offset st buf saves
      = lineLoop parse batchSize rest (batch ++ [e]) (offset + lineByteLen line)
          st buf saves := by
  simp only [lineLoop]
  rw [hr]
  dsimp only
  rw [if_neg hf]

theorem lineLoop_cons_none_flush (parse : String → Except String (Option AgentEvent))
    (batchSize : Nat) {line : String} (rest : List String)
    (batch : List AgentEvent) (offset : Int) (st : BackfillState)
    (buf : List AgentEvent) (saves : List BackfillState)
    (hr : parse line = .ok none)
    (hf : batch.length ≥ batchSize) :
    lineLoop parse batchSize (line :: rest) batch offset st buf saves
      = lineLoop parse batchSize rest [] (offset + lineByteLen line)
          (flushBatch batch (offset + lineByteLen line) st buf saves).1
          (flushBatch batch (offset + lineByteLen line) st buf saves).2.1
          (flushBatch batch (offset + lineByteLen line) st buf saves).2.2 := by
  simp only [lineLoop]
  rw [hr]
  dsimp only
  rw [if_pos hf]

theorem lineLoop_cons_none_stay (parse : String → Except String (Option AgentEvent))
    (batchSize : Nat) {line : String} (rest : List String)
    (batch : List AgentEvent) (offset : Int) (st : BackfillState)
    (buf : List AgentEvent) (saves : List BackfillState)
    (hr : parse line = .ok none)
    (hf : ¬ batch.length ≥ batchSize) :
    lineLoop parse batchSize (line :: rest) batch offset st buf saves
      = lineLoop parse batchSize rest batch (offset + lineByteLen line)
          st buf saves := by
  simp only [lineLoop]
  rw [hr]
  dsimp only
  rw [if_neg hf]

/-- Invariant of the streaming read loop on an error-free stretch of lines:
it consumes every line, advances the byte counter by (byte length + 1) per
line whether or not the line yielded an event, delivers every recognized
event to the Buffer Store or the pending batch, adds the flushed count to
the checkpoint, leaves the status untouched, and keeps the last save in
sync with the in-memory state. -/
theorem lineLoop_ok (parse : String → Except String (Option AgentEvent))
    (batchSize : Nat) :
    ∀ (lines : List String) (batch : List AgentEvent) (offset : Int)
      (st : BackfillState) (buf : List AgentEvent) (saves : List BackfillState),
    (∀ l ∈ lines, ∃ r, parse l = .ok r) →
    ∃ flushed batch' st' saves',
      lineLoop parse batchSize lines batch offset st buf saves
        = (batch', offset + fileByteSize lines, st', buf ++ flushed, saves', none)
      ∧ flushed ++ batch' = batch ++ parsedEvents parse lines
      ∧ st'.total_events_processed = st.total_events_processed + flushed.length
      ∧ st'.status = st.status
      ∧ (saves.getLast? = some st → saves'.getLast? = some st') := by
  intro lines
  induction lines with
  | nil =>
    intro batch offset st buf saves _
    refine ⟨[], batch, st, saves, ?_, ?_, ?_, rfl, fun hs => hs⟩
    · simp [lineLoop, fileByteSize]
    · simp [parsedEvents]
    · simp
  | cons line rest ih =>
    intro batch offset st buf saves h
    obtain ⟨r, hr⟩ := h line (List.mem_cons_self line rest)
    have hrest : ∀ l ∈ rest, ∃ r, parse l = .ok r :=
      fun l hl => h l (List.mem_cons_of_mem line hl)
    cases r with
    | some e =>
      have hparsed := parsedEvents_cons_some parse rest hr
      by_cases hf : (batch ++ [e]).length ≥ batchSize
      · obtain ⟨hbufF, hsaveF, htotF, hstatF, _⟩ :=
          flushBatch_spec (batch ++ [e]) (offset + lineByteLen line) st buf saves
        obtain ⟨flushedR, batchR, stR, savesR, heq, hsplit, htot, hstat, hsync⟩ :=
          ih [] (offset + lineByteLen line)
            (flushBatch (batch ++ [e]) (offset + lineByteLen line) st buf saves).1
            (flushBatch (batch ++ [e]) (offset + lineByteLen line) st buf saves).2.1
            (flushBatch (batch ++ [e]) (offset + lineByteLen line) st buf saves).2.2
            hrest
        refine ⟨(batch ++ [e]) ++ flushedR, batchR, stR, savesR, ?_, ?_, ?_, ?_, ?_⟩
        · rw [lineLoop_cons_some_flush parse batchSize rest batch offset st buf saves hr hf,
            heq, hbufF, fileByteSize_cons]
          rw [List.append_assoc, Int.add_assoc]
        · rw [List.append_assoc, hsplit, List.nil_append, hparsed]
          simp
        · rw [htot, htotF]
          simp only [List.length_append]
          push_cast
          ring
        · rw [hstat, hstatF]
        · intro _
          refine hsync ?_
          rw [hsaveF]
          exact List.getLast?_concat _
      · obtain ⟨flushedR, batchR, stR, savesR, heq, hsplit, htot, hstat, hsync⟩ :=
          ih (batch ++ [e]) (offset + lineByteLen line) st buf saves hrest
        refine ⟨flushedR, batchR, stR, savesR, ?_, ?_, htot, hstat, hsync⟩
        · rw [lineLoop_cons_some_stay parse batchSize rest batch offset st buf saves hr hf,
            heq, fileByteSize_cons, Int.add_assoc]
        · rw [hsplit, hparsed]
          simp
    | none =>
      have hparsed := parsedEvents_cons_none parse rest hr
      by_cases hf : batch.length ≥ batchSize
      · obtain ⟨hbufF, hsaveF, htotF, hstatF, _⟩ :=
          flushBatch_spec batch (offset + lineByteLen line) st buf saves
        obtain ⟨flushedR, batchR, stR, savesR, heq, hsplit, htot, hstat, hsync⟩ :=
          ih [] (offset + lineByteLen line)
            (flushBatch batch (offset + lineByteLen line) st buf saves).1
            (flushBatch batch (offset + lineByteLen line) st buf saves).2.1
            (flushBatch batch (offset + lineByteLen line) st buf saves).2.2
            hrest
        refine ⟨batch ++ flushedR, batchR, stR, savesR, ?_, ?_, ?_, ?_, ?_⟩
        · rw [lineLoop_cons_none_flush parse batchSize rest batch offset st buf saves hr hf,
            heq, hbufF, fileByteSize_cons]
          rw [List.append_assoc, Int.add_assoc]
        · rw [List.append_assoc, hsplit, List.nil_append, hparsed]
        · rw [htot, htotF]
          simp only [List.length_append]
          push_cast
          ring
        · rw [hstat, hstatF]
        · intro _
          refine hsync ?_
          rw [hsaveF]
          exact List.getLast?_concat _
      · obtain ⟨flushedR, batchR, stR, savesR, heq, hsplit, htot, hstat, hsync⟩ :=
          ih batch (offset + lineByteLen line) st buf saves hrest
        refine ⟨flushedR, batchR, stR, savesR, ?_, ?_, htot, hstat, hsync⟩
        · rw [lineLoop_cons_none_stay parse batchSize rest batch offset st buf saves hr hf,
            heq, fileByteSize_cons, Int.add_assoc]
        · rw [hsplit, hparsed]

/-- When the loop hits a line whose parse propagates an error, it stops
with that error; the checkpoint state it returns is untouched since the
last flush, its status is unchanged, and it still equals the last save. -/
theorem lineLoop_err (parse : String → Except String (Option AgentEvent))
    (batchSize : Nat) :
    ∀ (pre : List String) (bad : String) (post : List String) (msg : String)
      (batch : List AgentEvent) (offset : Int) (st : BackfillState)
      (buf : List AgentEvent) (saves : List BackfillState),
    (∀ l ∈ pre, ∃ r, parse l = .ok r) →
    parse bad = .error msg →
    ∃ batch' offset' st' buf' saves',
      lineLoop parse batchSize (pre ++ bad :: post) batch offset st buf saves
        = (batch', offset', st', buf', saves', some msg)
      ∧ st'.status = st.status
      ∧ (saves.getLast? = some st → saves'.getLast? = some st') := by
  intro pre
  induction pre with
  | nil =>
    intro bad post msg batch offset st buf saves _ hbad
    refine ⟨batch, offset + lineByteLen bad, st, buf, saves, ?_, rfl, fun hs => hs⟩
    rw [List.nil_append]
    exact lineLoop_cons_err parse batchSize post batch offset st buf saves hbad
  | cons line rest ih =>
    intro bad post msg batch offset st buf saves h hbad
    obtain ⟨r, hr⟩ := h line (List.mem_cons_self line rest)
    have hrest : ∀ l ∈ rest, ∃ r, parse l = .ok r :=
      fun l hl => h l (List.mem_cons_of_mem line hl)
    rw [List.cons_append]
    cases r with
    | some e =>
      by_cases hf : (batch ++ [e]).length ≥ batchSize
      · obtain ⟨_, hsaveF, _, hstatF, _⟩ :=
          flushBatch_spec (batch ++ [e]) (offset + lineByteLen line) st buf saves
        obtain ⟨batchR, offsetR, stR, bufR, savesR, heq, hstat, hsync⟩ :=
          ih bad post msg [] (offset + lineByteLen line)
            (flushBatch (batch ++ [e]) (offset + lineByteLen line) st buf saves).1
            (flushBatch (batch ++ [e]) (offset + lineByteLen line) st buf saves).2.1
            (flushBatch (batch ++ [e]) (offset + lineByteLen line) st buf saves).2.2
            hrest hbad
        refine ⟨batchR, offsetR, stR, bufR, savesR, ?_, ?_, ?_⟩
        · rw [lineLoop_cons_some_flush parse batchSize (rest ++ bad :: post) batch offset
            st buf saves hr hf, heq]
        · rw [hstat, hstatF]
        · intro _
          refine hsync ?_
          rw [hsaveF]
          exact List.getLast?_concat _
      · obtain ⟨batchR, offsetR, stR, bufR, savesR, heq, hstat, hsync⟩ :=
          ih bad post msg (batch ++ [e]) (offset + lineByteLen line) st buf saves
            hrest hbad
        refine ⟨batchR, offsetR, stR, bufR, savesR, ?_, hstat, hsync⟩
        rw [lineLoop_cons_some_stay parse batchSize (rest ++ bad :: post) batch offset
          st buf saves hr hf, heq]
    | none =>
      by_cases hf : batch.length ≥ batchSize
      · obtain ⟨_, hsaveF, _, hstatF, _⟩ :=
          flushBatch_spec batch (offset + lineByteLen line) st buf saves
        obtain ⟨batchR, offsetR, stR, bufR, savesR, heq, hstat, hsync⟩ :=
          ih bad post msg [] (offset + lineByteLen line)
            (flushBatch batch (offset + lineByteLen line) st buf saves).1
            (flushBatch batch (offset + lineByteLen line) st buf saves).2.1
            (flushBatch batch (offset + lineByteLen line) st buf saves).2.2
            hrest hbad
        refine ⟨batchR, offsetR, stR, bufR, savesR, ?_, ?_, ?_⟩
        · rw [lineLoop_cons_none_flush parse batchSize (rest ++ bad :: post) batch offset
            st buf saves hr hf, heq]
        · rw [hstat, hstatF]
        · intro _
          refine hsync ?_
          rw [hsaveF]
          exact List.getLast?_concat _
      · obtain ⟨batchR, offsetR, stR, bufR, savesR, heq, hstat, hsync⟩ :=
          ih bad post msg batch (offset + lineByteLen line) st buf saves hrest hbad
        refine ⟨batchR, offsetR, stR, bufR, savesR, ?_, hstat, hsync⟩
        rw [lineLoop_cons_none_stay parse batchSize (rest ++ bad :: post) batch offset
          st buf saves hr hf, heq]

/-- A clean end-of-file run of the streaming path: every recognized event
reaches the Buffer Store in order, the checkpoint counts all of them, the
returned in-memory offset is forced to the file's byte length, the status
is untouched, and the last save equals the returned state minus that final
offset override. -/
theorem backfill_file_line_by_line_ok
    (parse : String → Except String (Option AgentEvent)) (batchSize : Nat)
    (lines : List String) (fileSize : Int) (st : BackfillState)
    (buf : List AgentEvent) (saves : List BackfillState)
    (hok : ∀ l ∈ lines, ∃ r, parse l = .ok r)
    (hsync : saves.getLast? = some st) :
    ∃ st2 saves2,
      backfill_file_line_by_line parse batchSize lines fileSize st buf saves
        = ({ st2 with last_byte_offset := fileSize },
           buf ++ parsedEvents parse lines, saves2, .ok ())
      ∧ st2.total_events_processed
          = st.total_events_processed + (parsedEvents parse lines).length
      ∧ st2.status = st.status
      ∧ saves2.getLast? = some st2 := by
  obtain ⟨flushed, batch', st', saves', heq, hsplit, htotL, hstatL, hsyncL⟩ :=
    lineLoop_ok parse batchSize lines [] st.last_byte_offset st buf saves hok
  rw [List.nil_append] at hsplit
  have hsync' : saves'.getLast? = some st' := hsyncL hsync
  have hlen : flushed.length + batch'.length = (parsedEvents parse lines).length := by
    rw [← List.length_append, hsplit]
  by_cases hbe : batch' = []
  · subst hbe
    refine ⟨st', saves', ?_, ?_, hstatL, hsync'⟩
    · unfold backfill_file_line_by_line
      rw [heq]
      simp only [List.isEmpty_nil, if_true]
      rw [List.append_nil] at hsplit
      rw [hsplit]
    · rw [htotL]
      simp at hlen
      omega
  · have hbe' : batch'.isEmpty = false := by
      simpa [List.isEmpty_iff] using hbe
    obtain ⟨hbufF, hsaveF, htotF, hstatF, _⟩ :=
      flushBatch_spec batch' (st.last_byte_offset + fileByteSize lines) st'
        (buf ++ flushed) saves'
    refine ⟨(flushBatch batch' (st.last_byte_offset + fileByteSize lines) st'
        (buf ++ flushed) saves').1,
      (flushBatch batch' (st.last_byte_offset + fileByteSize lines) st'
        (buf ++ flushed) saves').2.2, ?_, ?_, ?_, ?_⟩
    · unfold backfill_file_line_by_line
      rw [heq]
      simp only [hbe', Bool.false_eq_true, if_false]
      rw [hbufF, List.append_assoc, hsplit]
    · rw [htotF, htotL]
      omega
    · rw [hstatF, hstatL]
    · rw [hsaveF]
      exact List.getLast?_concat _

/-- A streaming run that hits a propagating parse error: the error is
returned, the state (still at its last flushed checkpoint) keeps its
status, and the last save still equals that state. -/
theorem backfill_file_line_by_line_err
    (parse : String → Except String (Option AgentEvent)) (batchSize : Nat)
    (pre : List String) (bad : String) (post : List String) (msg : String)
    (fileSize : Int) (st : BackfillState) (buf : List AgentEvent)
    (saves : List BackfillState)
    (hpre : ∀ l ∈ pre, ∃ r, parse l = .ok r)
    (hbad : parse bad = .error msg)
    (hsync : saves.getLast? = some st) :
    ∃ st1 buf1 saves1,
      backfill_file_line_by_line parse batchSize (pre ++ bad :: post) fileSize
          st buf saves
        = (st1, buf1, saves1, .error msg)
      ∧ st1.status = st.status
      ∧ saves1.getLast? = some st1 := by
  obtain ⟨batch', offset', st', buf', saves', heq, hstat, hsyncL⟩ :=
    lineLoop_err parse batchSize pre bad post msg [] st.last_byte_offset st buf
      saves hpre hbad
  refine ⟨st', buf', saves', ?_, hstat, hsyncL hsync⟩
  unfold backfill_file_line_by_line
  rw [heq]

/-- C2: a full streaming backfill of a newline-terminated file from a fresh
state returns success with the persisted Backfill State showing
`last_byte_offset` equal to the file's total byte length and
`total_events_processed` equal to the number of lines whose parse returned
an event; the Buffer Store receives exactly those events in order; and the
loop's byte counter always advances by (line byte length + 1) for every
line read, whatever the parse results were (skipped lines included). -/
theorem C2_streaming_backfill_full_file
    (parse : String → Except String (Option AgentEvent)) (batchSize : Nat)
    (lines : List String) (now : Int) (st0 : BackfillState)
    (buf : List AgentEvent) (saves : List BackfillState)
    (hstatus : ¬ st0.status = .completed)
    (_hoff : st0.last_byte_offset = 0)
    (htot : st0.total_events_processed = 0)
    (hok : ∀ l ∈ lines, ∃ r, parse l = .ok r) :
    (backfill_file parse batchSize lines (fileByteSize lines) now st0 buf saves).2.2.2
        = .ok ()
    ∧ (backfill_file parse batchSize lines (fileByteSize lines) now st0 buf
        saves).1.last_byte_offset = fileByteSize lines
    ∧ (backfill_file parse batchSize lines (fileByteSize lines) now st0 buf
        saves).1.total_events_processed = (parsedEvents parse lines).length
    ∧ (backfill_file parse batchSize lines (fileByteSize lines) now st0 buf
        saves).1.status = .completed
    ∧ (backfill_file parse batchSize lines (fileByteSize lines) now st0 buf
        saves).1.completed_at = some now
    ∧ (backfill_file parse batchSize lines (fileByteSize lines) now st0 buf
        saves).2.1 = buf ++ parsedEvents parse lines
    ∧ (backfill_file parse batchSize lines (fileByteSize lines) now st0 buf
        saves).2.2.1.getLast?
        = some (backfill_file parse batchSize lines (fileByteSize lines) now st0
            buf saves).1
    ∧ (∀ (batch : List AgentEvent) (offset : Int) (st : BackfillState)
        (buf' : List AgentEvent) (saves' : List BackfillState),
        (lineLoop parse batchSize lines batch offset st buf' saves').2.1
          = offset + fileByteSize lines) := by
  obtain ⟨st2, saves2, hlbl, htot2, hstat2, hsync2⟩ :=
    backfill_file_line_by_line_ok parse batchSize lines (fileByteSize lines)
      { st0 with status := .inProgress } buf (saves ++ [{ st0 with status := .inProgress }])
      hok (List.getLast?_concat _)
  have hbf : backfill_file parse batchSize lines (fileByteSize lines) now st0 buf saves
      = ({ st2 with
            last_byte_offset := fileByteSize lines
            status := .completed
            completed_at := some now },
         buf ++ parsedEvents parse lines,
         saves2 ++ [{ st2 with
            last_byte_offset := fileByteSize lines
            status := .completed
            completed_at := some now }], .ok ()) := by
    unfold backfill_file
    rw [if_neg hstatus]
    dsimp only
    rw [hlbl]
  rw [hbf]
  refine ⟨rfl, rfl, ?_, rfl, rfl, rfl, List.getLast?_concat _, ?_⟩
  · show st2.total_events_processed = _
    rw [htot2]
    simp [htot]
  · intro batch offset st buf' saves'
    by_cases h1 : ∃ r', lineLoop parse batchSize lines batch offset st buf' saves' = r'
    · obtain ⟨flushed, batch', st', saves', heq, -, -, -, -⟩ :=
        lineLoop_ok parse batchSize lines batch offset st buf' saves' hok
      rw [heq]
    · exact absurd ⟨_, rfl⟩ h1

/-- A demo line parser for concrete runs: the line "ev" yields one event,
everything else is skipped. -/
def parseDemo : String → Except String (Option AgentEvent) :=
  fun l => if l = "ev" then .ok (some evBare) else .ok none

/-- A fresh Backfill State, never started. -/
def stFresh : BackfillState :=
  { id := 0, agent_name := "cursor", log_file_path := "/tmp/c.log",
    last_byte_offset := 0, last_timestamp := none, total_events_processed := 0,
    status := .new, started_at := 0, completed_at := none, error_message := none }

theorem parseDemo_ok : ∀ l ∈ ["ev", "xx", "ev"], ∃ r, parseDemo l = .ok r := by
  intro l _
  unfold parseDemo
  by_cases h : l = "ev" <;> simp [h]

theorem C2_streaming_backfill_full_file_witness :
    (¬ stFresh.status = .completed)
    ∧ stFresh.last_byte_offset = 0
    ∧ stFresh.total_events_processed = 0
    ∧ (∀ l ∈ ["ev", "xx", "ev"], ∃ r, parseDemo l = .ok r)
    ∧ (backfill_file parseDemo 2 ["ev", "xx", "ev"]
        (fileByteSize ["ev", "xx", "ev"]) 9 stFresh [] []).1.last_byte_offset
        = fileByteSize ["ev", "xx", "ev"]
    ∧ (backfill_file parseDemo 2 ["ev", "xx", "ev"]
        (fileByteSize ["ev", "xx", "ev"]) 9 stFresh [] []).1.total_events_processed
        = (parsedEvents parseDemo ["ev", "xx", "ev"]).length :=
  ⟨by decide, rfl, rfl, parseDemo_ok,
   (C2_streaming_backfill_full_file parseDemo 2 ["ev", "xx", "ev"] 9 stFresh [] []
      (by decide) rfl rfl parseDemo_ok).2.1,
   (C2_streaming_backfill_full_file parseDemo 2 ["ev", "xx", "ev"] 9 stFresh [] []
      (by decide) rfl rfl parseDemo_ok).2.2.1⟩

/-- C9: when a streaming backfill hits a line whose parse propagates an
error, the run returns that error, the persisted record is marked Failed
with the message in `error_message`, and that final persisted record is
exactly the last successfully saved checkpoint with only the status and
message changed — `last_byte_offset` and `total_events_processed` stay at
their last saved values, so a retry resumes from the checkpoint; and when
no line errors, the run instead transitions to Completed and records
`completed_at`. -/
theorem C9_failed_backfill_keeps_checkpoint
    (parse : String → Except String (Option AgentEvent)) (batchSize : Nat)
    (pre : List String) (bad : String) (post : List String) (msg : String)
    (fileSize now : Int) (st0 : BackfillState) (buf : List AgentEvent)
    (saves : List BackfillState)
    (hstatus : ¬ st0.status = .completed)
    (hpre : ∀ l ∈ pre, ∃ r, parse l = .ok r)
    (hbad : parse bad = .error msg) :
    (backfill_file parse batchSize (pre ++ bad :: post) fileSize now st0 buf
        saves).2.2.2 = .error msg
    ∧ (∃ ckpt saves',
        (backfill_file parse batchSize (pre ++ bad :: post) fileSize now st0 buf
            saves).1 = { ckpt with status := .failed, error_message := some msg }
        ∧ ckpt.status = .inProgress
        ∧ (backfill_file parse batchSize (pre ++ bad :: post) fileSize now st0 buf
            saves).2.2.1
            = saves' ++ [{ ckpt with status := .failed, error_message := some msg }]
        ∧ saves'.getLast? = some ckpt)
    ∧ (∀ lines : List String, (∀ l ∈ lines, ∃ r, parse l = .ok r) →
        (backfill_file parse batchSize lines fileSize now st0 buf saves).1.status
            = .completed
        ∧ (backfill_file parse batchSize lines fileSize now st0 buf
            saves).1.completed_at = some now
        ∧ (backfill_file parse batchSize lines fileSize now st0 buf saves).2.2.2
            = .ok ()) := by
  obtain ⟨st1', buf1, saves1, hlbl, hstat1, hsync1⟩ :=
    backfill_file_line_by_line_err parse batchSize pre bad post msg fileSize
      { st0 with status := .inProgress } buf
      (saves ++ [{ st0 with status := .inProgress }]) hpre hbad
      (List.getLast?_concat _)
  have hbf : backfill_file parse batchSize (pre ++ bad :: post) fileSize now st0
      buf saves
      = ({ st1' with status := .failed, error_message := some msg }, buf1,
         saves1 ++ [{ st1' with status := .failed, error_message := some msg }],
         .error msg) := by
    unfold backfill_file
    rw [if_neg hstatus]
    dsimp only
    rw [hlbl]
  refine ⟨by rw [hbf], ⟨st1', saves1, by rw [hbf], hstat1, by rw [hbf], hsync1⟩, ?_⟩
  intro lines hok
  obtain ⟨st2, saves2, hlbl2, _, _, _⟩ :=
    backfill_file_line_by_line_ok parse batchSize lines fileSize
      { st0 with status := .inProgress } buf
      (saves ++ [{ st0 with status := .inProgress }]) hok
      (List.getLast?_concat _)
  have hbf2 : backfill_file parse batchSize lines fileSize now st0 buf saves
      = ({ st2 with
            last_byte_offset := fileSize
            status := .completed
            completed_at := some now },
         buf ++ parsedEvents parse lines,
         saves2 ++ [{ st2 with
            last_byte_offset := fileSize
            status := .completed
            completed_at := some now }], .ok ()) := by
    unfold backfill_file
    rw [if_neg hstatus]
    dsimp only
    rw [hlbl2]
  rw [hbf2]
  exact ⟨rfl, rfl, rfl⟩

theorem C9_failed_backfill_keeps_checkpoint_witness :
    (¬ stFresh.status = .completed)
    ∧ copilotParseLogLine "some line" = .error copilotLineErr
    ∧ (backfill_file copilotParseLogLine 2 ([] ++ "some line" :: []) 10 4 stFresh
        [] []).2.2.2 = .error copilotLineErr :=
  ⟨by decide, rfl,
   (C9_failed_backfill_keeps_checkpoint copilotParseLogLine 2 [] "some line" []
      copilotLineErr 10 4 stFresh [] [] (by decide) (by simp) rfl).1⟩

/-- The fixed timestamp offset each kind of Copilot synthetic sub-event
carries relative to its parent request's timestamp. -/
def copilotDelta (eventType : String) : Int :=
  if eventType = "tool_use" then 100
  else if eventType = "file_modify" then 200
  else if eventType = "llm_response" then 1000
  else 0

theorem copilotFileRefStep_mem (mkId : Nat → String)
    (projectId sessionId reqId : String) (t : Int) :
    ∀ (vars : List CopilotVariable) (acc : List AgentEvent × Nat) (e : AgentEvent),
    e ∈ (vars.foldl (copilotFileRefStep mkId projectId sessionId reqId t) acc).1 →
    e ∈ acc.1 ∨ (e.event_type = "file_read" ∧ e.timestamp = t) := by
  intro vars
  induction vars with
  | nil => intro acc e he; exact Or.inl he
  | cons var rest ih =>
    intro acc e he
    rw [List.foldl_cons] at he
    rcases ih _ e he with hmem | hp
    · unfold copilotFileRefStep at hmem
      dsimp only at hmem
      split at hmem
      · exact Or.inl hmem
      · rcases List.mem_append.mp hmem with h | h
        · exact Or.inl h
        · right
          rw [List.mem_singleton.mp h]
          exact ⟨rfl, rfl⟩
    · exact Or.inr hp

theorem copilotRespItemStep_mem (mkId : Nat → String)
    (projectId sessionId reqId : String) (t : Int) :
    ∀ (items : List CopilotResponseItem) (acc : List AgentEvent × List String × Nat)
      (e : AgentEvent),
    e ∈ (items.foldl (copilotRespItemStep mkId projectId sessionId reqId t) acc).1 →
    e ∈ acc.1 ∨ (e.event_type = "tool_use" ∧ e.timestamp = t + 100)
      ∨ (e.event_type = "file_modify" ∧ e.timestamp = t + 200) := by
  intro items
  induction items with
  | nil => intro acc e he; exact Or.inl he
  | cons item rest ih =>
    intro acc e he
    rw [List.foldl_cons] at he
    rcases ih _ e he with hmem | hp
    · unfold copilotRespItemStep at hmem
      dsimp only at hmem
      split at hmem
      · split at hmem
        · exact Or.inl hmem
        · exact Or.inl hmem
      · split at hmem
        · rcases List.mem_append.mp hmem with h | h
          · exact Or.inl h
          · right; left
            rw [List.mem_singleton.mp h]
            exact ⟨rfl, rfl⟩
        · split at hmem
          · rcases List.mem_append.mp hmem with h | h
            · exact Or.inl h
            · right; right
              rw [List.mem_singleton.mp h]
              exact ⟨rfl, rfl⟩
          · exact Or.inl hmem
    · exact Or.inr hp

/-- C8 (amended): every synthetic sub-event of a non-canceled request whose
timestamp parsed to `t` carries the parent timestamp plus a fixed per-kind
delta — 0 for the request itself and for file references, +100ms for tool
invocations, +200ms for file modifications, +1000ms for the response; all
sub-event timestamps stay within [t, t+1000]; the emitted chunk starts with
the request at `t` and ends with the response at `t+1000`.  The deltas are
not all positive (file references share the request's timestamp) and the
emitted sequence is not timestamp-monotone (tool/modify events follow
response-item order). -/
theorem C8_request_event_offsets (est : String → Int) (mkId : Nat → String)
    (projectId sessionId workspaceId username : String)
    (req : CopilotRequest) (t : Int) (k : Nat) :
    (∀ e ∈ (copilotRequestEvents est mkId projectId sessionId workspaceId
        username req t k).1,
        e.timestamp = t + copilotDelta e.event_type
        ∧ t ≤ e.timestamp ∧ e.timestamp ≤ t + 1000)
    ∧ (((copilotRequestEvents est mkId projectId sessionId workspaceId
        username req t k).1.getLast?).map fun e => (e.event_type, e.timestamp))
        = some ("llm_response", t + 1000)
    ∧ (((copilotRequestEvents est mkId projectId sessionId workspaceId
        username req t k).1.head?).map fun e => (e.event_type, e.timestamp))
        = some ("llm_request", t) := by
  have d1 : copilotDelta "llm_request" = 0 := rfl
  have d2 : copilotDelta "file_read" = 0 := rfl
  have d3 : copilotDelta "tool_use" = 100 := rfl
  have d4 : copilotDelta "file_modify" = 200 := rfl
  have d5 : copilotDelta "llm_response" = 1000 := rfl
  cases hA : req.variable_data.foldl
      (copilotFileRefStep mkId projectId sessionId req.request_id t) ([], k + 1) with
  | mk fe k1 =>
  cases hB : req.response.foldl
      (copilotRespItemStep mkId projectId sessionId req.request_id t) ([], [], k1) with
  | mk me tpk2 =>
  cases tpk2 with
  | mk tp k2 =>
  unfold copilotRequestEvents
  dsimp only
  rw [hA]
  dsimp only
  rw [hB]
  dsimp only
  refine ⟨?_, ?_, ?_⟩
  · intro e he
    rcases List.mem_cons.mp he with rfl | he'
    · refine ⟨?_, ?_, ?_⟩ <;> simp [copilotBaseEvent, d1]
    · rcases List.mem_append.mp he' with hfm | hresp
      · rcases List.mem_append.mp hfm with hfe | hme
        · have hmem := copilotFileRefStep_mem mkId projectId sessionId req.request_id t
            req.variable_data ([], k + 1) e (by rw [hA]; exact hfe)
          rcases hmem with hnil | ⟨hty, hts⟩
          · simp at hnil
          · rw [hty, hts, d2]
            refine ⟨by omega, by omega, by omega⟩
        · have hmem := copilotRespItemStep_mem mkId projectId sessionId req.request_id t
            req.response ([], [], k1) e (by rw [hB]; exact hme)
          rcases hmem with hnil | ⟨hty, hts⟩ | ⟨hty, hts⟩
          · simp at hnil
          · rw [hty, hts, d3]
            refine ⟨by omega, by omega, by omega⟩
          · rw [hty, hts, d4]
            refine ⟨by omega, by omega, by omega⟩
      · rw [List.mem_singleton.mp hresp]
        refine ⟨?_, ?_, ?_⟩ <;> simp [copilotBaseEvent, d5]
  · rw [List.getLast?_concat]
    simp [copilotBaseEvent]
  · simp [copilotBaseEvent]

/-- A concrete non-canceled request carrying one file reference, one
text-edit group followed by one tool invocation, at timestamp 0. -/
def c8req : CopilotRequest :=
  { request_id := "r1", timestamp := .num 0, model_id := "m",
    message_text := "hi",
    response := [{ kind := some "textEditGroup", value := .null,
                   tool_id := none, tool_name := none },
                 { kind := some "toolInvocationSerialized", value := .null,
                   tool_id := some "t1", tool_name := some "shell" }],
    variable_data := [{ name := "v", value := [("path", .str "/f.rs")] }],
    is_canceled := false }

/-- A one-request chat session around `c8req`. -/
def c8session : CopilotChatSession :=
  { version := 1, requester_username := "user", requests := [c8req] }

/-- C8 counterexample: on `c8session` the whole-file parser emits events
with timestamps [0, 0, 200, 100, 1000] — the file-reference sub-event's
delta is 0 (not positive) and the sequence is not monotone (the file_modify
at +200ms precedes the tool_use at +100ms because emission follows
response-item order), contradicting the claim that each sub-event is
offset by a positive delta, monotonically. -/
theorem C8_counterexample :
    ((copilotParseLogFile (fun _ => none) (fun _ => 0) (fun n => toString n)
        "p" "s" "w" 5 c8session).map fun evs => evs.map fun e => e.timestamp)
      = some [0, 0, 200, 100, 1000]
    ∧ ¬ List.Pairwise (fun a b => a ≤ b) ([0, 0, 200, 100, 1000] : List Int) := by
  refine ⟨rfl, ?_⟩
  decide

theorem C8_request_event_offsets_witness :
    ∃ e, e ∈ (copilotRequestEvents (fun _ => 0) (fun n => toString n)
        "p" "s" "w" "u" c8req 0 0).1
      ∧ e.timestamp = 0 + copilotDelta e.event_type
      ∧ (0 : Int) ≤ e.timestamp ∧ e.timestamp ≤ 0 + 1000 := by
  have hmem : _ ∈ (copilotRequestEvents (fun _ => 0) (fun n => toString n)
      "p" "s" "w" "u" c8req 0 0).1 := List.mem_cons_self _ _
  exact ⟨_, hmem, (C8_request_event_offsets (fun _ => 0) (fun n => toString n)
    "p" "s" "w" "u" c8req 0 0).1 _ hmem⟩
